import Mathlib

/-!
MSP430 / TM4C123G embedded programs: a verification development.

Shallow embedding of the network-facing parts of the repository:

* lab5 (`src/lab5/main.c`): the request-path builder in `main`, and the HTTP
  response reader `readResponse`;
* the JSON tokenizer that `ParseJSONData` calls;
* lab6 (`src/lab6/main.c`): the command-frame server `BsdTcpServer`.

Machine integers are `Nat`/`Int` with explicit wrap-around where the C code
converts between widths. Calls into the network and driver libraries are
inputs of the model (the value every call returns) and outputs of the model
(the ordered trace of calls that were made).
-/

/-! ## Machine-integer helpers -/

/-- Value of a 32-bit pattern read as a signed `int` (two's complement). -/
def toInt32 (n : Nat) : Int :=
  if n % 2 ^ 32 < 2 ^ 31 then (n % 2 ^ 32 : Nat) else ((n % 2 ^ 32 : Nat) : Int) - 2 ^ 32

/-- Byte stored when an `int` is assigned to a `char`/`_u8` object. -/
def toByte (x : Int) : Nat := (x % 256).toNat

/-- Read of byte `i` of a byte array; cells past the modelled list read as 0. -/
def byteAt (buf : List Nat) (i : Nat) : Nat := buf.getD i 0

namespace Lab5

/-! ## lab5: building the request path (`main`, lines 336-343) -/

/-- The 29 characters of the initialiser of `GET_REQUEST_URI` (line 104). -/
def GET_REQUEST_URI_text : List Char :=
  ['/', '?', 'f', 'u', 'n', 'c', '=', 's', 'a', 'v', 'e', '&', 'I', 'D', '=',
   'x', 'x', 'x', 'x', 'x', 'x', 'x', 'x', 'x', '&', 'P', 'O', 'T', '=']

/-- Initial content of `char GET_REQUEST_URI[32]`: the string literal, the rest
of the 32 bytes zero-filled. -/
def GET_REQUEST_URI : List Nat :=
  GET_REQUEST_URI_text.map Char.toNat ++ List.replicate (32 - GET_REQUEST_URI_text.length) 0

/-- The digit-extraction statements of `main` (lines 336-343), run on the array
`uri` with `ui32ADCValueStore = adc`. Division is C division (truncating). -/
def main_digitExtraction (uri : List Nat) (adc : Nat) : List Nat :=
  -- ui32DigitExtraction = (int)ui32ADCValueStore/16;
  let ext0 : Int := (toInt32 adc).tdiv 16
  -- ui32DigitFromADCValue = ui32DigitExtraction/100;
  let dig0 : Int := ext0.tdiv 100
  -- ui32DigitExtraction = ui32DigitExtraction-ui32DigitFromADCValue*100;
  let ext1 : Int := ext0 - dig0 * 100
  -- GET_REQUEST_URI[29]= ui32DigitFromADCValue+48;
  let uri1 := uri.set 29 (toByte (dig0 + 48))
  -- ui32DigitFromADCValue = ui32DigitExtraction/10;
  let dig1 : Int := ext1.tdiv 10
  -- GET_REQUEST_URI[30] = ui32DigitFromADCValue+48;
  let uri2 := uri1.set 30 (toByte (dig1 + 48))
  -- ui32DigitExtraction = ui32DigitExtraction-ui32DigitFromADCValue*10;
  let ext2 : Int := ext1 - dig1 * 10
  -- GET_REQUEST_URI[31] = ui32DigitExtraction+48;
  uri2.set 31 (toByte (ext2 + 48))

/-- Reading the three-character field back as a decimal number. -/
def decodeField (uri : List Nat) : Int :=
  ((byteAt uri 29 : Int) - 48) * 100 + ((byteAt uri 30 : Int) - 48) * 10
    + ((byteAt uri 31 : Int) - 48)

/-! ## lab5: the response reader (`readResponse`, lines 404-532) -/

/-- Constant of line 101. -/
def MAX_BUFF_SIZE : Nat := 1460

/-- The value of `sizeof(g_buff)` for `_u8 g_buff[MAX_BUFF_SIZE+1]` (line 110). -/
def sizeof_g_buff : Nat := MAX_BUFF_SIZE + 1

/-- C library `strncmp` on byte strings: compares at most `n` characters and
stops after a NUL; a cell past the end of the modelled list reads as NUL. -/
def strncmp : List Nat → List Nat → Nat → Int
  | _, _, 0 => 0
  | s1, s2, n + 1 =>
    let c1 := s1.headD 0
    let c2 := s2.headD 0
    if c1 ≠ c2 then (c1 : Int) - (c2 : Int)
    else if c1 = 0 then 0
    else strncmp s1.tail s2.tail n

/-- The characters of the literal "application/json" (lines 446-447). -/
def applicationJson : List Nat :=
  ['a', 'p', 'p', 'l', 'i', 'c', 'a', 't', 'i', 'o', 'n', '/', 'j', 's', 'o', 'n'].map Char.toNat

/-- The value of `sizeof("application/json")`: the 16 characters and the NUL. -/
def sizeof_applicationJson : Nat := applicationJson.length + 1

/-- The C string held in a buffer: the bytes before the first NUL. -/
def cstr (buf : List Nat) : List Nat := buf.takeWhile (fun c => c ≠ 0)

/-- One return of `HTTPCli_getResponseField` before `HTTPCli_FIELD_ID_END`: the
id returned, the bytes it left in `g_buff`, and `moreFlags` after the call. -/
structure FieldRead where
  id : Int
  value : List Nat
  more : Bool
deriving DecidableEq

/-- What the HTTP client library and the C library do during one call of
`readResponse`: these are the inputs of the model. -/
structure Exchange where
  /-- return value of `HTTPCli_getResponseStatus` -/
  status : Int
  /-- successive returns of `HTTPCli_getResponseField`, up to (not including)
  the one that returns `HTTPCli_FIELD_ID_END` -/
  fields : List FieldRead
  /-- the C library `strtoul(., NULL, 0)` on a buffer content -/
  strtoul : List Nat → Nat
  /-- whether `malloc` returns a non-NULL pointer -/
  mallocOk : Bool
  /-- return value of `HTTPCli_readResponseBody` -/
  bodyRet : Int
  /-- value of `moreFlags` after `HTTPCli_readResponseBody` -/
  bodyMore : Bool
  /-- return value of `ParseJSONData` if it is called -/
  parseRet : Int

/-- Which buffer `dataBuffer` points to. -/
inductive DataBuffer where
  | null
  | g_buff
  | heap
deriving DecidableEq

/-- Observable steps of `readResponse`, in program order. -/
inductive Step where
  /-- `default:` of the field switch, line 463 -/
  | wrongFilterId
  /-- `malloc(len)`, line 472 -/
  | malloc (len : Nat)
  /-- the branch of lines 475-477 -/
  | allocationFailure
  /-- `HTTPCli_readResponseBody(httpClient, dataBuffer, len, &moreFlags)`, line 484 -/
  | readBody (buf : DataBuffer) (len : Nat)
  /-- the branch of lines 487-489 -/
  | readFailure
  /-- the branch of lines 493-494 -/
  | lengthMismatch
  /-- the write `dataBuffer[bytesRead] = 0`, line 496 -/
  | terminate (buf : DataBuffer) (index : Int)
  /-- `ParseJSONData(dataBuffer)`, line 500 -/
  | parseJSON
  /-- `case 404`, line 512 -/
  | fileNotFound
  /-- `FlushHTTPResponse(httpClient)`, line 514 -/
  | flush
  /-- the `else` of lines 518-522 -/
  | noStatus
  /-- `free(dataBuffer)`, line 529 -/
  | free
deriving DecidableEq

/-- Local variables of `readResponse` that the field loop assigns. -/
structure Fields where
  len : Nat
  json : Int
  moreFlags : Bool
deriving DecidableEq

/-- The field loop of lines 429-468. `.error` is the `goto end` of the
`default` case, `.ok` the normal end of the loop; both carry the values of
`len`, `json`, `moreFlags` at that point. -/
def readFields (strtoul : List Nat → Nat) : List FieldRead → Fields → Except Fields Fields
  | [], acc => .ok acc
  | f :: rest, acc =>
    if f.id = 0 then
      -- len = strtoul((char *)g_buff, NULL, 0);   (len is a 32-bit unsigned)
      readFields strtoul rest { acc with len := strtoul f.value % 2 ^ 32, moreFlags := f.more }
    else if f.id = 1 then
      readFields strtoul rest { acc with moreFlags := f.more }
    else if f.id = 2 then
      if strncmp f.value applicationJson sizeof_applicationJson = 0 then
        readFields strtoul rest { acc with json := 1, moreFlags := f.more }
      else
        readFields strtoul rest { acc with json := 0, moreFlags := f.more }
    else .error { acc with moreFlags := f.more }

/-- Result of `readResponse`: the value returned and the steps taken. -/
structure Outcome where
  retVal : Int
  steps : List Step
deriving DecidableEq

/-- The code at label `end` (lines 526-531). -/
def readResponse_end (retVal : Int) (len : Nat) (dataBuffer : DataBuffer)
    (steps : List Step) : Outcome :=
  if len > sizeof_g_buff ∧ dataBuffer ≠ DataBuffer.null then
    { retVal := retVal, steps := steps ++ [Step.free] }
  else { retVal := retVal, steps := steps }

/-- Lines 484-510 of `readResponse`: the body read and what follows it, with
`retVal` still holding the status code. -/
def readResponse_body (x : Exchange) (retVal : Int) (v : Fields) (dataBuffer : DataBuffer)
    (steps : List Step) : Outcome :=
  let steps := steps ++ [Step.readBody dataBuffer v.len]
  let bytesRead := x.bodyRet
  let moreFlags := x.bodyMore
  if bytesRead < 0 then
    readResponse_end bytesRead v.len dataBuffer (steps ++ [Step.readFailure])
  -- bytesRead < len compares a signed with a 32-bit unsigned: as unsigned
  else if (bytesRead % 2 ^ 32).toNat < v.len ∨ moreFlags = true then
    readResponse_end retVal v.len dataBuffer (steps ++ [Step.lengthMismatch])
  else
    let steps := steps ++ [Step.terminate dataBuffer bytesRead]
    if v.json ≠ 0 then
      let retVal := x.parseRet
      if retVal < 0 then
        readResponse_end retVal v.len dataBuffer (steps ++ [Step.parseJSON])
      else readResponse_end 0 v.len dataBuffer (steps ++ [Step.parseJSON])
    else readResponse_end 0 v.len dataBuffer steps

/-- The function `readResponse` (lines 404-532). -/
def readResponse (x : Exchange) : Outcome :=
  let retVal := x.status
  if retVal > 0 then
    if retVal = 200 then
      match readFields x.strtoul x.fields { len := 0, json := 0, moreFlags := true } with
      | .error v => readResponse_end (-1) v.len DataBuffer.null [Step.wrongFilterId]
      | .ok v =>
        if v.len > sizeof_g_buff then
          let steps := [Step.malloc v.len]
          if x.mallocOk then
            -- if(dataBuffer) { ... retVal = -1; goto end; }
            readResponse_end (-1) v.len DataBuffer.heap (steps ++ [Step.allocationFailure])
          else readResponse_body x retVal v DataBuffer.null steps
        else readResponse_body x retVal v DataBuffer.g_buff []
    else if retVal = 404 then
      readResponse_end 0 0 DataBuffer.null [Step.fileNotFound, Step.flush]
    else readResponse_end 0 0 DataBuffer.null [Step.flush]
  else readResponse_end retVal 0 DataBuffer.null [Step.noStatus]

/-- The value of the last field with identifier `id` that was delivered, if
there is one. -/
def lastValue (id : Int) : List FieldRead → Option (List Nat)
  | [] => none
  | f :: rest =>
    match lastValue id rest with
    | some v => some v
    | none => if f.id = id then some f.value else none

/-- The declared Content-Length: `strtoul` of the last Content-Length value
(identifier 0) as a 32-bit unsigned, 0 when no such field was delivered. -/
def declaredLength (x : Exchange) : Nat :=
  match lastValue 0 x.fields with
  | some v => x.strtoul v % 2 ^ 32
  | none => 0

/-- All delivered field identifiers are among the three recognised ones. -/
def recognised (fields : List FieldRead) : Prop :=
  ∀ f ∈ fields, f.id = 0 ∨ f.id = 1 ∨ f.id = 2

/-- The values of a 32-bit signed integer (`_i32`). -/
def isI32 (v : Int) : Prop := -2 ^ 31 ≤ v ∧ v < 2 ^ 31

/-- The characters of a decimal numeral, as bytes. -/
def bytesOf (text : List Char) : List Nat := text.map Char.toNat

/-- An exchange: status 200, `Content-Length: 5`, the body read fails with -1
and `moreFlags` is left set. -/
def failedReadExchange : Exchange :=
  { status := 200
    fields := [{ id := 0, value := bytesOf ['5'], more := false }]
    strtoul := fun _ => 5
    mallocOk := true
    bodyRet := -1
    bodyMore := true
    parseRet := 0 }

/-- An exchange: status 200, `Content-Length: 5`, the body read yields 3 bytes
and clears `moreFlags`. -/
def shortBodyExchange : Exchange :=
  { status := 200
    fields := [{ id := 0, value := bytesOf ['5'], more := false }]
    strtoul := fun _ => 5
    mallocOk := true
    bodyRet := 3
    bodyMore := false
    parseRet := 0 }

/-- An exchange: status 200, `Content-Length: 1461`, the body read yields all
1461 bytes and clears `moreFlags`. -/
def fullBufferExchange : Exchange :=
  { status := 200
    fields := [{ id := 0, value := bytesOf ['1', '4', '6', '1'], more := false }]
    strtoul := fun _ => 1461
    mallocOk := true
    bodyRet := 1461
    bodyMore := false
    parseRet := 0 }

/-- An exchange: status 200, `Content-Length: 5`, `Content-Type:
application/json`, the body read yields all 5 bytes. -/
def jsonExchange : Exchange :=
  { status := 200
    fields := [{ id := 0, value := bytesOf ['5'], more := false },
               { id := 2, value := applicationJson, more := false }]
    strtoul := fun _ => 5
    mallocOk := true
    bodyRet := 5
    bodyMore := false
    parseRet := 3 }

end Lab5

namespace Jsmn

/-! ## The JSON tokenizer called by `ParseJSONData`

`src/lab5/main.c` includes the tokenizer (`jsmn.h`, `jsmn.c`) but its text is
not among the sources; the definitions of this section follow section 4.3 of
the specification. -/

/-- Modelled from the spec: the token kinds of the tokenizer (`jsmn.h` is not
among the sources): one of object, array, string, primitive. -/
inductive JsonKind where
  | object
  | array
  | string
  | primitive
deriving DecidableEq

/-- Modelled from the spec: a token record of the tokenizer (`jsmn.h` is not
among the sources): kind, start offset, end offset (exclusive), and size, the
number of immediate child tokens of a container. -/
structure JsonToken where
  kind : JsonKind
  start : Nat
  stop : Nat
  size : Nat
deriving DecidableEq

/-- Modelled from the spec: the two failure modes of the tokenizer (`jsmn.h` is
not among the sources): token budget exceeded, and a parse error for a
malformed value or a scan that does not advance. -/
inductive TokError where
  | notEnoughTokens
  | parseError
deriving DecidableEq

/-- Modelled from the spec: state of the scan of the tokenizer (`jsmn.c` is not
among the sources): the cursor, the tokens produced so far in document order,
and the indices of the containers still open, innermost first. -/
structure Scan where
  pos : Nat
  tokens : List JsonToken
  opened : List Nat
deriving DecidableEq

/-- Modelled from the spec: the value-terminator characters (comma, closing
bracket, closing brace, whitespace) that bound a primitive in the tokenizer
(`jsmn.c` is not among the sources). -/
def isTerminator (c : Nat) : Bool :=
  c = 44 || c = 93 || c = 125 || c = 32 || c = 9 || c = 10 || c = 13

/-- Modelled from the spec: separators skipped between tokens by the tokenizer
(`jsmn.c` is not among the sources): whitespace, colon and comma. -/
def isSeparator (c : Nat) : Bool :=
  c = 32 || c = 9 || c = 10 || c = 13 || c = 58 || c = 44

/-- Modelled from the spec: end of a primitive in the tokenizer (`jsmn.c` is not
among the sources): the offset of the first value terminator at or after
offset `i`, or the end of the body. -/
def primitiveEnd : List Nat → Nat → Nat
  | [], i => i
  | c :: rest, i => if isTerminator c then i else primitiveEnd rest (i + 1)

/-- Modelled from the spec: end of a string in the tokenizer (`jsmn.c` is not
among the sources): the offset of the closing double quote, where a character
that follows a backslash never closes the string; `none` when the string is
not terminated. -/
def stringEnd : List Nat → Nat → Bool → Option Nat
  | [], _, _ => none
  | c :: rest, i, escaped =>
    if escaped then stringEnd rest (i + 1) false
    else if c = 34 then some i
    else if c = 92 then stringEnd rest (i + 1) true
    else stringEnd rest (i + 1) false

/-- Modelled from the spec: child counting of the tokenizer (`jsmn.c` is not
among the sources): the size of the token at index `i` grows by one. -/
def addChild : Nat → List JsonToken → List JsonToken
  | _, [] => []
  | 0, t :: ts => { t with size := t.size + 1 } :: ts
  | i + 1, t :: ts => t :: addChild i ts

/-- Modelled from the spec: closing of a container in the tokenizer (`jsmn.c` is
not among the sources): the token at index `i` gets its end offset. -/
def setStop : Nat → Nat → List JsonToken → List JsonToken
  | _, _, [] => []
  | 0, e, t :: ts => { t with stop := e } :: ts
  | i + 1, e, t :: ts => t :: setStop i e ts

/-- Modelled from the spec: token allocation of the tokenizer (`jsmn.c` is not
among the sources): a new token is stored after the ones already produced and
counts as a child of the innermost open container; when the budget is used
up the result is the not-enough-tokens error. -/
def allocToken (budget : Nat) (s : Scan) (t : JsonToken) : Except TokError Scan :=
  if s.tokens.length < budget then
    match s.opened with
    | [] => .ok { s with tokens := s.tokens ++ [t] }
    | i :: _ => .ok { s with tokens := addChild i s.tokens ++ [t] }
  else .error TokError.notEnoughTokens

/-- Modelled from the spec: one step of the scan of the tokenizer (`jsmn.c` is
not among the sources) at the character `c` under the cursor. -/
def step (body : List Nat) (budget : Nat) (s : Scan) (c : Nat) : Except TokError Scan :=
  if c = 123 ∨ c = 91 then
    -- an opening brace or bracket starts a container
    (allocToken budget s
        { kind := if c = 123 then JsonKind.object else JsonKind.array,
          start := s.pos, stop := s.pos, size := 0 }).map
      (fun s1 => { s1 with pos := s.pos + 1, opened := s.tokens.length :: s.opened })
  else if c = 125 ∨ c = 93 then
    -- a closing brace or bracket closes the innermost open container
    match s.opened with
    | [] => .error TokError.parseError
    | i :: outer =>
      if (s.tokens.get? i).map (fun t => t.kind)
          = some (if c = 125 then JsonKind.object else JsonKind.array) then
        .ok { pos := s.pos + 1, tokens := setStop i (s.pos + 1) s.tokens, opened := outer }
      else .error TokError.parseError
  else if c = 34 then
    -- a double quote starts a string, which must be terminated
    match stringEnd (body.drop (s.pos + 1)) (s.pos + 1) false with
    | none => .error TokError.parseError
    | some q =>
      (allocToken budget s
          { kind := JsonKind.string, start := s.pos + 1, stop := q, size := 0 }).map
        (fun s1 => { s1 with pos := q + 1 })
  else if isSeparator c then .ok { s with pos := s.pos + 1 }
  else
    -- any other character starts a primitive
    (allocToken budget s
        { kind := JsonKind.primitive, start := s.pos,
          stop := primitiveEnd (body.drop s.pos) s.pos, size := 0 }).map
      (fun s1 => { s1 with pos := primitiveEnd (body.drop s.pos) s.pos })

/-- Modelled from the spec: the scan loop of the tokenizer (`jsmn.c` is not
among the sources). It ends at the end of the body, where a container that
is still open is a parse error; a scan that has not reached the end of the
body within `fuel` steps is a parse error (stuck cursor). -/
def scan (body : List Nat) (budget : Nat) : Nat → Scan → Except TokError (List JsonToken)
  | 0, _ => .error TokError.parseError
  | fuel + 1, s =>
    match body.get? s.pos with
    | none => if s.opened = [] then .ok s.tokens else .error TokError.parseError
    | some c =>
      match step body budget s c with
      | .error e => .error e
      | .ok s1 => scan body budget fuel s1

/-- Modelled from the spec: the tokenizer (`jsmn_parse` of `jsmn.c`, which is
not among the sources): given a byte body and a maximum token budget it
produces the tokens in document order or fails. Every step moves the cursor
forward, so `body.length + 1` steps reach the end of the body. -/
def tokenize (body : List Nat) (budget : Nat) : Except TokError (List JsonToken) :=
  scan body budget (body.length + 1) { pos := 0, tokens := [], opened := [] }

/-- The 17 bytes of the body `{"a":1,"b":[2,3]}`. -/
def exampleBody : List Nat :=
  [123, 34, 97, 34, 58, 49, 44, 34, 98, 34, 58, 91, 50, 44, 51, 93, 125]

/-- The bytes of a token: the slice of the body between its offsets. -/
def tokenText (body : List Nat) (t : JsonToken) : List Nat :=
  (body.drop t.start).take (t.stop - t.start)

end Jsmn

namespace Lab6

/-! ## lab6: the command-frame server (`BsdTcpServer`, lines 461-584) -/

/-- Constant of line 64. -/
def BUF_SIZE : Nat := 1400

/-- Constant of line 65. -/
def NO_OF_PACKETS : Nat := 1000

/-- Enumerator of line 68. -/
def DEVICE_NOT_IN_STATION_MODE : Int := -0x7D0

/-- Enumerator of line 69. -/
def TCP_SEND_ERROR : Int := DEVICE_NOT_IN_STATION_MODE - 1

/-- Enumerator of line 70. -/
def TCP_RECV_ERROR : Int := TCP_SEND_ERROR - 1

/-- The value of `SUCCESS` in the SimpleLink header `sl_common.h`. -/
def SUCCESS : Int := 0

/-- The TivaWare pin mask of pin 1 (`driverlib/gpio.h`). -/
def GPIO_PIN_1 : Nat := 0x02

/-- The TivaWare pin mask of pin 2 (`driverlib/gpio.h`). -/
def GPIO_PIN_2 : Nat := 0x04

/-- The character constant of lines 535 and 543. -/
def char_1 : Nat := ('1').toNat

/-- Modelled from the spec: the driver call `GPIOPinWrite(port, pins, val)`
(TivaWare, not among the sources) sets each output selected by `pins` exactly
to the corresponding bit of `val` and leaves the other pins as they were.
`data` is the data register of the port before the call. -/
def GPIOPinWrite (data pins val : Nat) : Nat :=
  (data ^^^ (data &&& pins)) ||| (val &&& pins)

/-- Output 1: pin PF1 of the port F data register is high. -/
def PF1 (portF : Nat) : Bool := portF.testBit 1

/-- Output 2: pin PF2 of the port F data register is high. -/
def PF2 (portF : Nat) : Bool := portF.testBit 2

/-- What the socket layer and the sampler do during one run of `BsdTcpServer`:
the inputs of the model. Calls of one kind are numbered from 0. -/
structure Transport where
  /-- return value of `sl_Socket` -/
  socket : Int
  /-- return value of `sl_Bind` -/
  bind : Int
  /-- return value of `sl_Listen` -/
  listen : Int
  /-- return value of `sl_Accept` -/
  accept : Int
  /-- return value of the k-th `sl_Recv` and the bytes it stores -/
  recv : Nat → Int × List Nat
  /-- return value of the k-th `sl_Send` -/
  send : Nat → Int
  /-- return value of the k-th `sl_Close` -/
  close : Nat → Int
  /-- value of `ui32ADCValueStore` when the k-th reply is built -/
  adc : Nat → Nat

/-- Calls into the socket layer, with the arguments that matter. -/
inductive Call where
  | socket
  | bind (sock : Int)
  | listen (sock : Int)
  | accept (sock : Int)
  | recv (sock : Int) (offset : Int) (len : Int)
  | send (sock : Int) (data : List Nat)
  | close (sock : Int)
deriving DecidableEq

/-- Memory that `BsdTcpServer` works on, and the calls made so far. -/
structure Server where
  /-- the array `uBuf.BsdBuf`; `uBuf.PotValueBuf[0]` is its byte 0 (union) -/
  BsdBuf : List Nat
  /-- the array `ReceiveBuffer[20]` -/
  ReceiveBuffer : List Nat
  /-- data register of GPIO port F -/
  portF : Nat
  /-- number of `sl_Recv` calls made -/
  recvs : Nat
  /-- number of `sl_Send` calls made -/
  sends : Nat
  /-- number of `sl_Close` calls made -/
  closes : Nat
  /-- all socket calls made, oldest first -/
  calls : List Call
deriving DecidableEq

/-- How a part of `BsdTcpServer` ends: by a `return`, or by falling through. -/
inductive Flow where
  | returned (value : Int) (s : Server)
  | next (s : Server)
deriving DecidableEq

/-- The call `sl_Close(sock)`: its return value and the new state. -/
def sl_Close (t : Transport) (sock : Int) (s : Server) : Int × Server :=
  (t.close s.closes, { s with closes := s.closes + 1, calls := s.calls ++ [Call.close sock] })

/-- The bytes `data` stored into `buf` from index `off` on. -/
def storeAt (buf : List Nat) (off : Nat) (data : List Nat) : List Nat :=
  buf.take off ++ data.take (buf.length - off) ++ buf.drop (off + data.length)

/-- The Interpret step (lines 535-550): the two `GPIOPinWrite` calls chosen by
bytes 5 and 12 of `ReceiveBuffer`. -/
def interpret (ReceiveBuffer : List Nat) (portF : Nat) : Nat :=
  let portF :=
    if byteAt ReceiveBuffer 5 = char_1 then GPIOPinWrite portF GPIO_PIN_1 GPIO_PIN_1
    else GPIOPinWrite portF GPIO_PIN_1 0x0
  if byteAt ReceiveBuffer 12 = char_1 then GPIOPinWrite portF GPIO_PIN_2 GPIO_PIN_2
  else GPIOPinWrite portF GPIO_PIN_2 0x0

/-- The copy loop of lines 525-528. -/
def copyReceiveBuffer (BsdBuf : List Nat) : List Nat :=
  (List.range 20).map (fun irx => byteAt BsdBuf irx)

/-- The value stored by `uBuf.PotValueBuf[0] = ui32ADCValueStore/16` (line 555):
a 32-bit unsigned division, truncated to a byte. -/
def replyByte (ui32ADCValueStore : Nat) : Nat :=
  toByte (((ui32ADCValueStore % 2 ^ 32) / 16 : Nat) : Int)

/-- Lines 522-557, the body of the `do` loop up to the first `sl_Close`:
receive, copy, interpret, build the reply, send, close the accepted socket.
The result is the value of `Status` (the return value of `sl_Send`) and the
new state. -/
def replyRound (t : Transport) (newSockID : Int) (recvSize : Int) (s : Server) : Int × Server :=
  -- Status = sl_Recv(newSockID, &(uBuf.BsdBuf[BUF_SIZE - recvSize]), recvSize, 0);
  let off : Int := (BUF_SIZE : Int) - recvSize
  let r := t.recv s.recvs
  let s := { s with
    BsdBuf := storeAt s.BsdBuf off.toNat (r.2.take recvSize.toNat)
    recvs := s.recvs + 1
    calls := s.calls ++ [Call.recv newSockID off recvSize] }
  let s := { s with ReceiveBuffer := copyReceiveBuffer s.BsdBuf }
  let s := { s with portF := interpret s.ReceiveBuffer s.portF }
  -- uBuf.PotValueBuf[0] = ui32ADCValueStore/16;
  let s := { s with BsdBuf := s.BsdBuf.set 0 (replyByte (t.adc s.sends)) }
  -- Status = sl_Send(newSockID, uBuf.PotValueBuf, 1, 0 );
  let Status := t.send s.sends
  let s := { s with
    sends := s.sends + 1
    calls := s.calls ++ [Call.send newSockID (s.BsdBuf.take 1)] }
  -- sl_Close(newSockID);
  (Status, (sl_Close t newSockID s).2)

/-- The `do ... while(recvSize > 0)` of lines 520-570. -/
def recvLoop (t : Transport) (SockID newSockID : Int) : Nat → Int → Server → Option Flow
  | 0, _, _ => none
  | fuel + 1, recvSize, s =>
    let r := replyRound t newSockID recvSize s
    let Status := r.1
    let s := r.2
    if Status ≤ 0 then
      let s := (sl_Close t newSockID s).2
      let s := (sl_Close t SockID s).2
      -- ASSERT_ON_ERROR(TCP_RECV_ERROR);
      if TCP_RECV_ERROR < 0 then Flow.returned TCP_RECV_ERROR s
      else
        -- recvSize = 0;
        let recvSize : Int := 0
        if recvSize > 0 then recvLoop t SockID newSockID fuel recvSize s else Flow.next s
    else
      -- recvSize = 0;
      let recvSize : Int := 0
      if recvSize > 0 then recvLoop t SockID newSockID fuel recvSize s else Flow.next s

/-- The `while (LoopCount < NO_OF_PACKETS)` of lines 517-575. -/
def packetLoop (t : Transport) (SockID newSockID : Int) : Nat → Nat → Server → Option Flow
  | 0, _, _ => none
  | fuel + 1, LoopCount, s =>
    if LoopCount < NO_OF_PACKETS then
      match recvLoop t SockID newSockID fuel (BUF_SIZE : Int) s with
      | none => none
      | some (Flow.returned v s1) => some (Flow.returned v s1)
      | some (Flow.next s1) =>
        -- LoopCount = 1001;
        packetLoop t SockID newSockID fuel 1001 s1
    else some (Flow.next s)

/-- Result of a run of `BsdTcpServer`. -/
structure Run where
  value : Int
  final : Server
deriving DecidableEq

/-- The state after the fill loop of lines 475-478, with the port F data
register holding `portF`. -/
def initialServer (portF : Nat) : Server :=
  { BsdBuf := (List.range BUF_SIZE).map (fun idx => idx % 10 % 256)
    ReceiveBuffer := List.replicate 20 0
    portF := portF
    recvs := 0
    sends := 0
    closes := 0
    calls := [] }

/-- Lines 480-583 of `BsdTcpServer`, everything after the fill loop, started
in the state `s`. `ASSERT_ON_ERROR(x)` is the macro of `sl_common.h`: it
returns `x` from the function when `x` is negative. The result is `none`
only when `fuel` loop iterations were not enough. -/
def BsdTcpServer_serve (t : Transport) (s : Server) (fuel : Nat) : Option Run :=
  let SockID := t.socket
  let s := { s with calls := s.calls ++ [Call.socket] }
  if SockID < 0 then some { value := SockID, final := s } else
  let Status := t.bind
  let s := { s with calls := s.calls ++ [Call.bind SockID] }
  if Status < 0 then some { value := Status, final := (sl_Close t SockID s).2 } else
  let Status := t.listen
  let s := { s with calls := s.calls ++ [Call.listen SockID] }
  if Status < 0 then some { value := Status, final := (sl_Close t SockID s).2 } else
  let newSockID := t.accept
  let s := { s with calls := s.calls ++ [Call.accept SockID] }
  if newSockID < 0 then some { value := newSockID, final := (sl_Close t SockID s).2 } else
  match packetLoop t SockID newSockID fuel 0 s with
  | none => none
  | some (Flow.returned v s) => some { value := v, final := s }
  | some (Flow.next s) =>
    let c := sl_Close t newSockID s
    if c.1 < 0 then some { value := c.1, final := c.2 } else
    let c := sl_Close t SockID c.2
    if c.1 < 0 then some { value := c.1, final := c.2 } else
    some { value := SUCCESS, final := c.2 }

/-- The function `BsdTcpServer` (lines 461-584): the fill loop, then the
server proper. `portF` is the port F data register at entry. -/
def BsdTcpServer (t : Transport) (portF : Nat) (fuel : Nat) : Option Run :=
  BsdTcpServer_serve t (initialServer portF) fuel

/-- No call into the socket layer reports a failure (a negative status). -/
def noFailure (t : Transport) : Prop :=
  0 ≤ t.socket ∧ 0 ≤ t.bind ∧ 0 ≤ t.listen ∧ 0 ≤ t.accept ∧
    (∀ k, 0 ≤ (t.recv k).1) ∧ (∀ k, 0 ≤ t.send k) ∧ ∀ k, 0 ≤ t.close k

/-- A peer that keeps sending the 13-byte frame `LED1:1&LED2:0` (byte 5 is the
character 1, byte 12 the character 0): every call succeeds, the listening
socket is 0, the accepted socket is 1, and the stored sample is `adc`. -/
def steadyPeer (adc : Nat) : Transport :=
  { socket := 0
    bind := 0
    listen := 0
    accept := 1
    recv := fun _ => (13, ['L', 'E', 'D', '1', ':', '1', '&', 'L', 'E', 'D', '2', ':',
                          '0'].map Char.toNat)
    send := fun _ => 1
    close := fun _ => 0
    adc := fun _ => adc }

/-- A frame of 13 bytes, `LED1:1&LED2:0`: byte 5 is the character 1 and byte
12 is the character 0. -/
def exampleFrame : List Nat :=
  ['L', 'E', 'D', '1', ':', '1', '&', 'L', 'E', 'D', '2', ':', '0'].map Char.toNat

/-- Number of receive-interpret-reply rounds of a run. -/
def rounds (r : Run) : Nat := r.final.recvs

end Lab6

namespace Lab5

/-! ## lab5: further exchanges, and `ParseJSONData` (lines 641-680) -/

/-- An exchange: status 200, `Content-Length: 2000` (more than the inline
buffer holds), `malloc` returning a pointer or NULL as `mallocOk` says, and a
body read that yields all 2000 bytes. -/
def largeBodyExchange (mallocOk : Bool) : Exchange :=
  { status := 200
    fields := [{ id := 0, value := bytesOf ['2', '0', '0', '0'], more := false }]
    strtoul := fun _ => 2000
    mallocOk := mallocOk
    bodyRet := 2000
    bodyMore := false
    parseRet := 0 }

/-- An exchange: status 404. -/
def notFoundExchange : Exchange :=
  { status := 404
    fields := []
    strtoul := fun _ => 0
    mallocOk := true
    bodyRet := 0
    bodyMore := false
    parseRet := 0 }

/-- An exchange: status 200, and a field identifier (7) outside {0, 1, 2}. -/
def wrongIdExchange : Exchange :=
  { status := 200
    fields := [{ id := 7, value := [], more := false }]
    strtoul := fun _ => 0
    mallocOk := true
    bodyRet := 0
    bodyMore := false
    parseRet := 0 }

/-- Number of elements of `jsmntok_t tokenList[3]` (line 646). -/
def tokenList_size : Nat := 3

/-- Result of `ParseJSONData`: the value returned, and the `num_tokens`
argument of the second `jsmn_parse` call (the filling pass, which stores
into `tokenList`) when that call is made. -/
structure ParseRun where
  retVal : Int
  fillBudget : Option Int
deriving DecidableEq

/-- The function `ParseJSONData` (lines 641-680). The tokenizer is an input of
the model: `count` is the value returned by the first `jsmn_parse` call
(tokens = NULL, the counting pass) and `fill` the value returned by the
second one (the filling pass). -/
def ParseJSONData (count fill : Int) : ParseRun :=
  -- noOfToken = jsmn_parse(&parser, ptr, strlen(ptr), NULL, 10);
  let noOfToken := count
  if noOfToken ≤ 0 then
    { retVal := -1, fillBudget := none }
  else
    -- `tokenList == NULL` is false for an array
    -- noOfToken = jsmn_parse(&parser, ptr, strlen(ptr), tokenList, noOfToken);
    let budget := noOfToken
    let noOfToken := fill
    if noOfToken < 0 then { retVal := noOfToken, fillBudget := some budget }
    else { retVal := 0, fillBudget := some budget }

end Lab5

namespace Jsmn

/-! ## The counting pass of the tokenizer -/

/-- Modelled from the spec: one step of the counting pass of the tokenizer
(`jsmn.c` is not among the sources), which counts tokens without storing
them: the new cursor and the number of tokens found at the character `c`
under the cursor. Without stored tokens there is no container to close, so a
closing brace or bracket is passed over. -/
def countStep (body : List Nat) (pos : Nat) (c : Nat) : Except TokError (Nat × Nat) :=
  if c = 123 ∨ c = 91 then .ok (pos + 1, 1)
  else if c = 125 ∨ c = 93 then .ok (pos + 1, 0)
  else if c = 34 then
    match stringEnd (body.drop (pos + 1)) (pos + 1) false with
    | none => .error TokError.parseError
    | some q => .ok (q + 1, 1)
  else if isSeparator c then .ok (pos + 1, 0)
  else .ok (primitiveEnd (body.drop pos) pos, 1)

/-- Modelled from the spec: the scan loop of the counting pass of the
tokenizer (`jsmn.c` is not among the sources); a scan that has not reached
the end of the body within `fuel` steps is a parse error (stuck cursor). -/
def countScan (body : List Nat) : Nat → Nat → Nat → Except TokError Nat
  | 0, _, _ => .error TokError.parseError
  | fuel + 1, pos, count =>
    match body.get? pos with
    | none => .ok count
    | some c =>
      match countStep body pos c with
      | .error e => .error e
      | .ok (pos1, k) => countScan body fuel pos1 (count + k)

/-- Modelled from the spec: the counting pass of the tokenizer (`jsmn_parse`
of `jsmn.c`, which is not among the sources, called without a token array):
the number of tokens of the body, counted without storing them. -/
def countTokens (body : List Nat) : Except TokError Nat :=
  countScan body (body.length + 1) 0 0

end Jsmn

namespace Lab5

/-- The function `ParseJSONData` called on the buffer `ptr`: the counting pass
runs on the C string in `ptr` (`strlen(ptr)` characters); `code` gives the
negative value that the tokenizer returns for each failure, and `fill` is
the value returned by the filling pass. -/
def ParseJSONData_ptr (code : Jsmn.TokError → Int) (ptr : List Nat) (fill : Int) : ParseRun :=
  ParseJSONData
    (match Jsmn.countTokens (cstr ptr) with
     | .ok n => (n : Int)
     | .error e => code e)
    fill

end Lab5

namespace Lab6

/-! ## lab6: frames and peers -/

/-- The 15-byte text frame `LED1:a & LED2:b` of the specification. -/
def textFrame (a b : Nat) : List Nat :=
  ['L', 'E', 'D', '1', ':'].map Char.toNat ++ [a] ++
    [' ', '&', ' ', 'L', 'E', 'D', '2', ':'].map Char.toNat ++ [b]

/-- The 16-byte frame `LED1 :a& LED2 :b`, the form given in the comment of
lines 530-533 of the source. -/
def commentFrame (a b : Nat) : List Nat :=
  ['L', 'E', 'D', '1', ' ', ':'].map Char.toNat ++ [a] ++
    ['&', ' ', 'L', 'E', 'D', '2', ' ', ':'].map Char.toNat ++ [b]

/-- The `sl_Send` calls among a list of calls. -/
def sendCalls (calls : List Call) : List Call :=
  calls.filter (fun c => match c with
    | Call.send _ _ => true
    | _ => false)

end Lab6

namespace Lab5

/-! ## lab5: the sample store of `ADC0InitAndTrigger` (lines 850-866) -/

/-- Number of elements of `uint32_t ui32ADC0DigitalValue[1]` (line 106). -/
def ui32ADC0DigitalValue_size : Nat := 1

/-- The array `ui32ADC0DigitalValue` after `ADCSequenceDataGet(ADC0_BASE, 1,
ui32ADC0DigitalValue)` has stored the conversion result `sample`. -/
def ui32ADC0DigitalValue (sample : Nat) : List Nat :=
  List.replicate ui32ADC0DigitalValue_size sample

/-- The index of the read `ui32ADC0DigitalValue[1]` of line 865. -/
def ADC0InitAndTrigger_index : Nat := 1

/-- The value that `ADC0InitAndTrigger` stores into `ui32ADCValueStore` (line
865), when the conversion result is `sample`: the element read from the
array, `none` when the index is outside the array. -/
def ADC0InitAndTrigger (sample : Nat) : Option Nat :=
  (ui32ADC0DigitalValue sample).get? ADC0InitAndTrigger_index

end Lab5

namespace Lab6

/-! ## lab6: the sample store of `ADC0IntHandler` (lines 671-681), more peers -/

/-- Number of elements of `uint32_t ui32ADC0DigitalValue[1]` (line 87). -/
def ui32ADC0DigitalValue_size : Nat := 1

/-- The array `ui32ADC0DigitalValue` after `ADCSequenceDataGet(ADC0_BASE, 1,
ui32ADC0DigitalValue)` has stored the conversion result `sample`. -/
def ui32ADC0DigitalValue (sample : Nat) : List Nat :=
  List.replicate ui32ADC0DigitalValue_size sample

/-- The index of the read `ui32ADC0DigitalValue[1]` of line 680. -/
def ADC0IntHandler_index : Nat := 1

/-- The value that `ADC0IntHandler` stores into `ui32ADCValueStore` (line
680), when the conversion result is `sample`: the element read from the
array, `none` when the index is outside the array. -/
def ADC0IntHandler (sample : Nat) : Option Nat :=
  (ui32ADC0DigitalValue sample).get? ADC0IntHandler_index

/-- A peer for which every call succeeds except the second `sl_Close` (the one
of line 577, on the accepted socket), which returns -1. The listening
socket is 0, the accepted socket 1. -/
def closeFailPeer : Transport :=
  { socket := 0
    bind := 0
    listen := 0
    accept := 1
    recv := fun _ => (13, exampleFrame)
    send := fun _ => 1
    close := fun k => if k = 1 then -1 else 0
    adc := fun _ => 0 }

/-- A peer whose `sl_Recv` fails with -1 and stores nothing; every other call
succeeds. The listening socket is 0, the accepted socket 1. -/
def recvFailPeer : Transport :=
  { socket := 0
    bind := 0
    listen := 0
    accept := 1
    recv := fun _ => (-1, [])
    send := fun _ => 1
    close := fun _ => 0
    adc := fun _ => 0 }

end Lab6

namespace Lab1

/-! ## lab1: the LED and button loop (`src/lab1/main.c`) -/

/-- Constant of line 29. -/
def TWO_SEC : Nat := 9000

/-- Number of values of an `unsigned int`, 16 bits wide on the MSP430. -/
def UINT_RANGE : Nat := 2 ^ 16

/-- The variables of `main` and the register P1OUT; `reads` counts the reads
of the input register P1IN made so far. -/
structure Board where
  P1OUT : Nat
  switchPressTime : Nat
  switchCount : Nat
  switchPressDelayFlag : Nat
  switchPressTimeTotal : Nat
  reads : Nat
deriving DecidableEq

/-- The function `toggleLed2` (lines 120-126) on P1OUT; `delayForLed` changes
no variable. -/
def toggleLed2 (P1OUT : Nat) : Nat := P1OUT ^^^ 0x40

/-- The function `toggleLed1` (lines 128-133) on P1OUT. -/
def toggleLed1 (P1OUT : Nat) : Nat := P1OUT ^^^ 0x01

/-- The LED step of a pass of the main loop (lines 58-67). -/
def ledStep (b : Board) : Board :=
  if b.switchCount % 2 = 0 then
    -- P1OUT &= 0xFE; toggleLed2();
    { b with P1OUT := toggleLed2 (b.P1OUT &&& 0xFE) }
  else
    -- P1OUT &= 0xBF; toggleLed1();
    { b with P1OUT := toggleLed1 (b.P1OUT &&& 0xBF) }

/-- The hold-count loop of lines 77-91; `P1IN k` is the value of the k-th
read of P1IN. The result is `none` when `fuel` iterations were not enough. -/
def holdLoop (P1IN : Nat → Nat) : Nat → Board → Option Board
  | 0, _ => none
  | fuel + 1, b =>
    if b.switchPressTime ≤ TWO_SEC ∧ b.switchPressDelayFlag = 0 then
      let v := P1IN b.reads
      let b := { b with reads := b.reads + 1 }
      if v &&& 0x08 = 0 then
        holdLoop P1IN fuel { b with switchPressTime := (b.switchPressTime + 1) % UINT_RANGE }
      else
        holdLoop P1IN fuel { b with switchPressDelayFlag := 1 }
    else some b

/-- The press handling of lines 69-98. The assignments
`currentStateOfLed = P1OUT; P1OUT = currentStateOfLed;` leave P1OUT as it
is. The hold-count loop gets `TWO_SEC + 2` units of fuel. -/
def pressStep (P1IN : Nat → Nat) (b : Board) : Option Board :=
  let v := P1IN b.reads
  let b := { b with reads := b.reads + 1 }
  if v &&& 0x08 = 0 then
    match holdLoop P1IN (TWO_SEC + 2) b with
    | none => none
    | some b =>
      some { b with
        switchPressDelayFlag := 0
        switchPressTimeTotal := (b.switchPressTimeTotal + b.switchPressTime) % UINT_RANGE
        switchPressTime := 0 }
  else some b

/-- The release check of lines 100-113. -/
def releaseStep (P1IN : Nat → Nat) (b : Board) : Board :=
  let v := P1IN b.reads
  let b := { b with reads := b.reads + 1 }
  if v &&& 0x08 ≠ 0 then
    let b :=
      if b.switchPressTimeTotal ≥ TWO_SEC + 1 then
        { b with switchCount := (b.switchCount + 1) % UINT_RANGE }
      else b
    { b with switchPressTimeTotal := 0 }
  else b

/-- One pass of the `while (1)` loop of `main` (lines 56-116). -/
def pass (P1IN : Nat → Nat) (b : Board) : Option Board :=
  (pressStep P1IN (ledStep b)).map (releaseStep P1IN)

/-- The first `n` passes of the main loop. -/
def run (P1IN : Nat → Nat) : Nat → Board → Option Board
  | 0, b => some b
  | n + 1, b =>
    match pass P1IN b with
    | none => none
    | some b1 => run P1IN n b1

/-- The state at the first pass (lines 38-52): the variables are 0 and
`P1OUT &= 0xBE` has cleared bits 0 and 6 of the power-on value `p`. -/
def initialBoard (p : Nat) : Board :=
  { P1OUT := p &&& 0xBE
    switchPressTime := 0
    switchCount := 0
    switchPressDelayFlag := 0
    switchPressTimeTotal := 0
    reads := 0 }

/-- Number of reads of P1IN in a pass during which the button stays pressed:
the test of line 69, `TWO_SEC + 1` iterations of the hold-count loop, and
the test of line 100. -/
def readsPerHeldPass : Nat := TWO_SEC + 3

/-- The button S2 held down for `k` passes and released at the release check
of the k-th pass: P1IN bit 3 reads 0 (pressed) at every read but the last. -/
def heldFor (k : Nat) : Nat → Nat :=
  fun i => if i = k * readsPerHeldPass - 1 then 0x08 else 0x00

end Lab1

namespace Lab2

/-! ## lab2: `conversionFunction` (`src/lab2/main.c`, lines 99-129) -/

/-- The eleven range tests of `conversionFunction`, in program order. -/
def rangeTests (adcValue : Int) : List Bool :=
  [decide (adcValue = 0),
   decide (adcValue > 0 ∧ adcValue ≤ 102),
   decide (adcValue > 102 ∧ adcValue ≤ 205),
   decide (adcValue > 205 ∧ adcValue ≤ 307),
   decide (adcValue > 307 ∧ adcValue ≤ 409),
   decide (adcValue > 409 ∧ adcValue ≤ 512),
   decide (adcValue > 512 ∧ adcValue ≤ 614),
   decide (adcValue > 614 ∧ adcValue ≤ 716),
   decide (adcValue > 716 ∧ adcValue ≤ 818),
   decide (adcValue > 818 ∧ adcValue ≤ 921),
   decide (adcValue > 912 ∧ adcValue ≤ 1023)]

/-- The function `conversionFunction`; `garbage` is the indeterminate value of
the uninitialised local `noOfLEDsToBeLit`. -/
def conversionFunction (garbage : Int) (adcValue : Int) : Int :=
  let noOfLEDsToBeLit := garbage
  let noOfLEDsToBeLit := if adcValue = 0 then 0 else noOfLEDsToBeLit
  let noOfLEDsToBeLit := if adcValue > 0 ∧ adcValue ≤ 102 then 1 else noOfLEDsToBeLit
  let noOfLEDsToBeLit := if adcValue > 102 ∧ adcValue ≤ 205 then 2 else noOfLEDsToBeLit
  let noOfLEDsToBeLit := if adcValue > 205 ∧ adcValue ≤ 307 then 3 else noOfLEDsToBeLit
  let noOfLEDsToBeLit := if adcValue > 307 ∧ adcValue ≤ 409 then 4 else noOfLEDsToBeLit
  let noOfLEDsToBeLit := if adcValue > 409 ∧ adcValue ≤ 512 then 5 else noOfLEDsToBeLit
  let noOfLEDsToBeLit := if adcValue > 512 ∧ adcValue ≤ 614 then 6 else noOfLEDsToBeLit
  let noOfLEDsToBeLit := if adcValue > 614 ∧ adcValue ≤ 716 then 7 else noOfLEDsToBeLit
  let noOfLEDsToBeLit := if adcValue > 716 ∧ adcValue ≤ 818 then 8 else noOfLEDsToBeLit
  let noOfLEDsToBeLit := if adcValue > 818 ∧ adcValue ≤ 921 then 9 else noOfLEDsToBeLit
  let noOfLEDsToBeLit := if adcValue > 912 ∧ adcValue ≤ 1023 then 10 else noOfLEDsToBeLit
  noOfLEDsToBeLit

end Lab2

namespace Lab3

/-! ## lab3: `ConversionFunction` (`src/lab3/main.c`, lines 220-267) -/

/-- The eleven range tests of `ConversionFunction` (lines 237-257), in program
order, on the converted value `pui32ADCValue[0]`. -/
def rangeTests (adc : Nat) : List Bool :=
  [decide (adc = 0),
   decide (adc > 0 ∧ adc ≤ 410),
   decide (adc > 410 ∧ adc ≤ 819),
   decide (adc > 819 ∧ adc ≤ 1229),
   decide (adc > 1229 ∧ adc ≤ 1638),
   decide (adc > 1638 ∧ adc ≤ 2048),
   decide (adc > 2048 ∧ adc ≤ 2457),
   decide (adc > 2457 ∧ adc ≤ 2867),
   decide (adc > 2867 ∧ adc ≤ 3276),
   decide (adc > 3276 ∧ adc ≤ 3686),
   decide (adc > 3686 ∧ adc ≤ 4095)]

/-- The encoding statements of `ConversionFunction` (lines 237-258); `garbage`
is the indeterminate value of the uninitialised local
`ui8ValueToReceiverCurrent`. -/
def encode (garbage : Nat) (adc : Nat) : Nat :=
  let cur := garbage
  let cur := if adc = 0 then ('a').toNat else cur
  let cur := if adc > 0 ∧ adc ≤ 410 then ('b').toNat else cur
  let cur := if adc > 410 ∧ adc ≤ 819 then ('c').toNat else cur
  let cur := if adc > 819 ∧ adc ≤ 1229 then ('d').toNat else cur
  let cur := if adc > 1229 ∧ adc ≤ 1638 then ('e').toNat else cur
  let cur := if adc > 1638 ∧ adc ≤ 2048 then ('f').toNat else cur
  let cur := if adc > 2048 ∧ adc ≤ 2457 then ('g').toNat else cur
  let cur := if adc > 2457 ∧ adc ≤ 2867 then ('h').toNat else cur
  let cur := if adc > 2867 ∧ adc ≤ 3276 then ('i').toNat else cur
  let cur := if adc > 3276 ∧ adc ≤ 3686 then ('j').toNat else cur
  let cur := if adc > 3686 ∧ adc ≤ 4095 then ('k').toNat else cur
  cur

/-- The table of the header comment of `ConversionFunction` (lines 190-201):
the character documented for a digital value. -/
def documentedCharacter (adc : Nat) : Nat :=
  if adc = 0 then ('a').toNat
  else if adc ≤ 410 then ('b').toNat
  else if adc ≤ 819 then ('c').toNat
  else if adc ≤ 1229 then ('d').toNat
  else if adc ≤ 1638 then ('e').toNat
  else if adc ≤ 2048 then ('f').toNat
  else if adc ≤ 2457 then ('g').toNat
  else if adc ≤ 2867 then ('h').toNat
  else if adc ≤ 3276 then ('i').toNat
  else if adc ≤ 3686 then ('j').toNat
  else ('k').toNat

/-- The sender: the global `ui8ValueToReceiverPrevious`, and the characters
passed to `SendToReceiver` so far, oldest first. -/
structure Sender where
  ui8ValueToReceiverPrevious : Nat
  sent : List Nat
deriving DecidableEq

/-- The initial state: `ui8ValueToReceiverPrevious = 'z'` (line 58). -/
def initialSender : Sender :=
  { ui8ValueToReceiverPrevious := ('z').toNat, sent := [] }

/-- One call of `ConversionFunction` with the converted value `adc`. -/
def ConversionFunction (garbage : Nat) (adc : Nat) (s : Sender) : Sender :=
  let ui8ValueToReceiverCurrent := encode garbage adc
  if s.ui8ValueToReceiverPrevious ≠ ui8ValueToReceiverCurrent then
    { ui8ValueToReceiverPrevious := ui8ValueToReceiverCurrent
      sent := s.sent ++ [ui8ValueToReceiverCurrent] }
  else s

/-- The characters sent so far never repeat back to back, and the last one
sent is the previous character. -/
def sendInvariant (s : Sender) : Prop :=
  List.Chain' (fun a b => a ≠ b) s.sent ∧
    ∀ c, s.sent.getLast? = some c → c = s.ui8ValueToReceiverPrevious

/-- A sequence of `ConversionFunction` calls, one per converted value. -/
def calls (garbage : Nat) : List Nat → Sender → Sender
  | [], s => s
  | adc :: rest, s => calls garbage rest (ConversionFunction garbage adc s)

end Lab3

/-! ## Theorems -/

namespace Lab5

/-- The three bytes written by the digit extraction, for a 12-bit sample. -/
lemma main_digitExtraction_eq (s : Nat) (hs : s ≤ 4095) :
    main_digitExtraction GET_REQUEST_URI s =
      GET_REQUEST_URI_text.map Char.toNat ++
        [s / 16 / 100 + 48, s / 16 % 100 / 10 + 48, s / 16 % 10 + 48] := by
  have h1 : toInt32 s = (s : Int) := by
    unfold toInt32
    have : s % 2 ^ 32 = s := Nat.mod_eq_of_lt (by omega)
    rw [this, if_pos (by omega)]
  have e0 : (s : Int).tdiv 16 = ((s / 16 : Nat) : Int) := by
    rw [Int.tdiv_eq_ediv (by omega) (by omega)]; norm_cast
  have d0 : ((s / 16 : Nat) : Int).tdiv 100 = ((s / 16 / 100 : Nat) : Int) := by
    rw [Int.tdiv_eq_ediv (by omega) (by omega)]; norm_cast
  have x1 : ((s / 16 : Nat) : Int) - ((s / 16 / 100 : Nat) : Int) * 100
      = ((s / 16 % 100 : Nat) : Int) := by omega
  have d1 : ((s / 16 % 100 : Nat) : Int).tdiv 10 = ((s / 16 % 100 / 10 : Nat) : Int) := by
    rw [Int.tdiv_eq_ediv (by omega) (by omega)]; norm_cast
  have x2 : ((s / 16 % 100 : Nat) : Int) - ((s / 16 % 100 / 10 : Nat) : Int) * 10
      = ((s / 16 % 10 : Nat) : Int) := by omega
  have b0 : toByte (((s / 16 / 100 : Nat) : Int) + 48) = s / 16 / 100 + 48 := by
    unfold toByte; omega
  have b1 : toByte (((s / 16 % 100 / 10 : Nat) : Int) + 48) = s / 16 % 100 / 10 + 48 := by
    unfold toByte; omega
  have b2 : toByte (((s / 16 % 10 : Nat) : Int) + 48) = s / 16 % 10 + 48 := by
    unfold toByte; omega
  simp only [main_digitExtraction, h1, e0, d0, x1, d1, x2, b0, b1, b2]
  rfl

/-- C1: for every v in [0,255] and every stored sample s with s/16 = v, the
three bytes that the digit extraction of lab5 `main` writes at indices 29, 30,
31 of `GET_REQUEST_URI` decode, as
(URI[29]-48)*100 + (URI[30]-48)*10 + (URI[31]-48), to exactly v. -/
theorem C1_request_field_round_trip (v s : Nat) (hv : v ≤ 255) (hs : s / 16 = v) :
    decodeField (main_digitExtraction GET_REQUEST_URI s) = (v : Int) := by
  have hs4 : s ≤ 4095 := by omega
  rw [main_digitExtraction_eq s hs4]
  simp only [decodeField, byteAt, GET_REQUEST_URI_text]
  simp
  omega

/-- C1 witness: the sample 4095 (v = 255) decodes to 255. -/
theorem C1_request_field_round_trip_witness :
    (255 ≤ 255 ∧ 4095 / 16 = 255) ∧
      decodeField (main_digitExtraction GET_REQUEST_URI 4095) = (255 : Int) :=
  ⟨by decide, C1_request_field_round_trip 255 4095 (by decide) (by decide)⟩

end Lab5

namespace Lab5

/-- C8: for every stored sample s in [0,4095], after the digit extraction of
lab5 `main` the array still has 32 bytes, bytes 0..28 are still the 29
characters "/?func=save&ID=xxxxxxxxx&POT=", and bytes 29, 30, 31 are ASCII
digits (48..57) holding the hundreds, tens and units digit of s/16, the
encoded number s/16 being at most 255. -/
theorem C8_request_path_format (s : Nat) (hs : s ≤ 4095) :
    (main_digitExtraction GET_REQUEST_URI s).length = 32 ∧
    (main_digitExtraction GET_REQUEST_URI s).take 29 = GET_REQUEST_URI_text.map Char.toNat ∧
    GET_REQUEST_URI.take 29 = GET_REQUEST_URI_text.map Char.toNat ∧
    byteAt (main_digitExtraction GET_REQUEST_URI s) 29 = ('0').toNat + s / 16 / 100 ∧
    byteAt (main_digitExtraction GET_REQUEST_URI s) 30 = ('0').toNat + s / 16 / 10 % 10 ∧
    byteAt (main_digitExtraction GET_REQUEST_URI s) 31 = ('0').toNat + s / 16 % 10 ∧
    s / 16 / 100 ≤ 9 ∧ s / 16 / 10 % 10 ≤ 9 ∧ s / 16 % 10 ≤ 9 ∧
    s / 16 = 100 * (s / 16 / 100) + 10 * (s / 16 / 10 % 10) + s / 16 % 10 ∧
    s / 16 ≤ 255 := by
  rw [main_digitExtraction_eq s hs]
  have h30 : s / 16 % 100 / 10 = s / 16 / 10 % 10 := by omega
  refine ⟨by simp [GET_REQUEST_URI_text], by simp [GET_REQUEST_URI_text], by decide,
    ?_, ?_, ?_, by omega, by omega, by omega, by omega, by omega⟩
  · simp [byteAt, GET_REQUEST_URI_text]; omega
  · simp [byteAt, GET_REQUEST_URI_text]; omega
  · simp [byteAt, GET_REQUEST_URI_text]; omega

/-- C8 witness: the sample 4095 gives the field 255. -/
theorem C8_request_path_format_witness :
    4095 ≤ 4095 ∧
      byteAt (main_digitExtraction GET_REQUEST_URI 4095) 29 = ('0').toNat + 4095 / 16 / 100 :=
  ⟨by decide, (C8_request_path_format 4095 (by decide)).2.2.2.1⟩

/-! ### The response reader -/

/-- The comparison of lines 446-447 succeeds exactly when the C string in the
buffer is the literal. -/
lemma strncmp_eq_zero_iff (lit : List Nat) (hlit : ∀ c ∈ lit, c ≠ 0) (v : List Nat) :
    strncmp v lit (lit.length + 1) = 0 ↔ cstr v = lit := by
  induction lit generalizing v with
  | nil =>
    cases v with
    | nil => simp [strncmp, cstr]
    | cons c t =>
      by_cases hc : c = 0
      · simp [strncmp, cstr, hc]
      · simp [strncmp, cstr, hc]
  | cons a l ih =>
    have ha : a ≠ 0 := hlit a (by simp)
    have hl : ∀ c ∈ l, c ≠ 0 := fun c hc => hlit c (by simp [hc])
    cases v with
    | nil =>
      simp [strncmp, cstr]
      omega
    | cons c t =>
      by_cases hca : c = a
      · subst hca
        have := ih hl t
        simp only [List.length_cons] at this ⊢
        simp [strncmp, ha, cstr, List.takeWhile_cons] at this ⊢
        exact this
      · by_cases hc : c = 0
        · subst hc
          simp [strncmp, cstr]
          omega
        · simp [strncmp, cstr, List.takeWhile_cons, hc, hca]
          omega

/-- The comparison with "application/json" over `sizeof("application/json")`
characters. -/
lemma strncmp_applicationJson (v : List Nat) :
    strncmp v applicationJson sizeof_applicationJson = 0 ↔ cstr v = applicationJson :=
  strncmp_eq_zero_iff applicationJson (by decide) v

/-- With recognised identifiers only, the field loop ends normally with `len`
and `json` decided by the last Content-Length and Content-Type values. -/
lemma readFields_recognised (strtoul : List Nat → Nat) (fields : List FieldRead)
    (hrec : recognised fields) (acc : Fields) :
    ∃ m, readFields strtoul fields acc = .ok
      { len := match lastValue 0 fields with
               | some v => strtoul v % 2 ^ 32
               | none => acc.len
        json := match lastValue 2 fields with
                | some v => if cstr v = applicationJson then 1 else 0
                | none => acc.json
        moreFlags := m } := by
  induction fields generalizing acc with
  | nil => exact ⟨acc.moreFlags, by simp [readFields, lastValue]⟩
  | cons f rest ih =>
    have hrest : recognised rest := fun g hg => hrec g (by simp [hg])
    have hf := hrec f (by simp)
    rcases hf with h0 | h1 | h2
    · obtain ⟨m, hm⟩ := ih hrest { acc with len := strtoul f.value % 2 ^ 32, moreFlags := f.more }
      refine ⟨m, ?_⟩
      simp only [readFields, h0, if_true, hm, lastValue]
      cases lastValue 0 rest <;> cases lastValue 2 rest <;> simp
    · obtain ⟨m, hm⟩ := ih hrest { acc with moreFlags := f.more }
      refine ⟨m, ?_⟩
      simp only [readFields, h1, hm, lastValue]
      cases lastValue 0 rest <;> cases lastValue 2 rest <;> simp
    · by_cases hj : cstr f.value = applicationJson
      · obtain ⟨m, hm⟩ := ih hrest { acc with json := 1, moreFlags := f.more }
        refine ⟨m, ?_⟩
        simp only [readFields, h2, hm, lastValue, (strncmp_applicationJson f.value).mpr hj]
        cases lastValue 0 rest <;> cases lastValue 2 rest <;> simp [hj]
      · obtain ⟨m, hm⟩ := ih hrest { acc with json := 0, moreFlags := f.more }
        refine ⟨m, ?_⟩
        have hne : ¬ strncmp f.value applicationJson sizeof_applicationJson = 0 :=
          fun h => hj ((strncmp_applicationJson f.value).mp h)
        simp only [readFields, h2, hm, lastValue, hne]
        cases lastValue 0 rest <;> cases lastValue 2 rest <;> simp [hj]

/-- The shape of `readResponse` on a status-200 exchange with recognised
fields and a declared length that selects the inline buffer. -/
lemma readResponse_inline (x : Exchange) (h200 : x.status = 200)
    (hrec : recognised x.fields) (hL : declaredLength x ≤ sizeof_g_buff) :
    ∃ v : Fields, v.len = declaredLength x ∧
      (v.json = match lastValue 2 x.fields with
                | some w => if cstr w = applicationJson then 1 else 0
                | none => 0) ∧
      readResponse x = readResponse_body x 200 v DataBuffer.g_buff [] := by
  obtain ⟨m, hm⟩ := readFields_recognised x.strtoul x.fields hrec
    { len := 0, json := 0, moreFlags := true }
  refine ⟨{ len := declaredLength x
            json := match lastValue 2 x.fields with
                    | some w => if cstr w = applicationJson then 1 else 0
                    | none => 0
            moreFlags := m }, rfl, rfl, ?_⟩
  have hm2 : readFields x.strtoul x.fields { len := 0, json := 0, moreFlags := true } = .ok
      { len := declaredLength x
        json := match lastValue 2 x.fields with
                | some w => if cstr w = applicationJson then 1 else 0
                | none => 0
        moreFlags := m } := by
    rw [hm]; rfl
  have hgt : ¬ declaredLength x > sizeof_g_buff := by omega
  simp only [readResponse, h200, hm2]
  simp [hgt]

/-- At label `end` nothing is freed when `len` fits the inline buffer. -/
lemma readResponse_end_inline (retVal : Int) (len : Nat) (b : DataBuffer) (steps : List Step)
    (hlen : len ≤ sizeof_g_buff) :
    readResponse_end retVal len b steps = { retVal := retVal, steps := steps } := by
  have : ¬ len > sizeof_g_buff := by omega
  simp [readResponse_end, this]

/-- C2 (as amended): for every status-200 exchange whose field identifiers are
all recognised and whose declared Content-Length L selects the inline buffer
(L <= sizeof(g_buff) = 1461), with n the 32-bit signed value returned by
`HTTPCli_readResponseBody`: `readResponse` takes the length-mismatch branch
if and only if n >= 0 and (n < L or `moreFlags` is left set); it reaches the
terminator write with exactly L bytes read if and only if n = L and
`moreFlags` is clear. -/
theorem C2_body_length_check (x : Exchange) (h200 : x.status = 200)
    (hrec : recognised x.fields) (hL : declaredLength x ≤ sizeof_g_buff)
    (hn : isI32 x.bodyRet) :
    (Step.lengthMismatch ∈ (readResponse x).steps ↔
      0 ≤ x.bodyRet ∧ (x.bodyRet < (declaredLength x : Int) ∨ x.bodyMore = true)) ∧
    (Step.terminate DataBuffer.g_buff (declaredLength x : Int) ∈ (readResponse x).steps ↔
      x.bodyRet = (declaredLength x : Int) ∧ x.bodyMore = false) := by
  obtain ⟨v, hlen, -, hrun⟩ := readResponse_inline x h200 hrec hL
  have hv : v.len ≤ sizeof_g_buff := by omega
  obtain ⟨hlo, hhi⟩ := hn
  rw [hrun]
  unfold readResponse_body
  simp only [readResponse_end_inline _ _ _ _ hv]
  by_cases hneg : x.bodyRet < 0
  · simp only [hneg, if_true]
    constructor
    · simp; intro h; omega
    · simp; intro h; omega
  · have hmod : (x.bodyRet % 2 ^ 32).toNat < v.len ↔ x.bodyRet < (declaredLength x : Int) := by
      have h1 : x.bodyRet % 2 ^ 32 = x.bodyRet := Int.emod_eq_of_lt (by omega) (by omega)
      rw [h1, hlen]
      omega
    simp only [hneg, if_false, hmod]
    by_cases hmis : x.bodyRet < (declaredLength x : Int) ∨ x.bodyMore = true
    · rw [if_pos hmis]
      refine ⟨⟨fun _ => ⟨by omega, hmis⟩, fun _ => by simp⟩, ⟨fun h => ?_, fun h => ?_⟩⟩
      · simp at h
      · rcases hmis with h1 | h1
        · omega
        · rw [h.2] at h1; cases h1
    · rw [if_neg hmis]
      have hge : (declaredLength x : Int) ≤ x.bodyRet := by
        by_contra hc; exact hmis (Or.inl (by omega))
      have hmore : x.bodyMore = false := by
        cases hb : x.bodyMore
        · rfl
        · exact absurd (Or.inr hb) hmis
      refine ⟨⟨fun h => ?_, fun h => absurd h.2 hmis⟩, ⟨fun h => ⟨?_, hmore⟩, fun h => ?_⟩⟩
      · exfalso
        split_ifs at h <;> simp at h
      · split_ifs at h <;> simp at h <;> omega
      · split_ifs <;> simp [h.1]

/-- C2 witness: status 200, Content-Length 5, 3 bytes read: the mismatch
branch is taken. -/
theorem C2_body_length_check_witness :
    (shortBodyExchange.status = 200 ∧ recognised shortBodyExchange.fields ∧
      declaredLength shortBodyExchange ≤ sizeof_g_buff ∧ isI32 shortBodyExchange.bodyRet) ∧
    (Step.lengthMismatch ∈ (readResponse shortBodyExchange).steps ↔
      0 ≤ shortBodyExchange.bodyRet ∧
        (shortBodyExchange.bodyRet < (declaredLength shortBodyExchange : Int) ∨
          shortBodyExchange.bodyMore = true)) :=
  ⟨⟨rfl, by unfold recognised; decide, by decide, by unfold isI32; decide⟩,
   (C2_body_length_check shortBodyExchange rfl (by unfold recognised; decide) (by decide)
    (by unfold isI32; decide)).1⟩

/-- C2 as stated fails: with status 200, Content-Length 5 and a body read that
returns -1 and leaves `moreFlags` set, the right-hand side "0 <= n < L or
moreFlags set" holds, but `readResponse` takes the read-failure branch of
lines 485-490, not the length-mismatch branch. -/
theorem C2_body_length_check_counterexample :
    failedReadExchange.status = 200 ∧ recognised failedReadExchange.fields ∧
    declaredLength failedReadExchange ≤ sizeof_g_buff ∧
    ((0 ≤ failedReadExchange.bodyRet ∧
        failedReadExchange.bodyRet < (declaredLength failedReadExchange : Int)) ∨
      failedReadExchange.bodyMore = true) ∧
    Step.lengthMismatch ∉ (readResponse failedReadExchange).steps ∧
    (readResponse failedReadExchange).steps =
      [Step.readBody DataBuffer.g_buff 5, Step.readFailure] := by
  refine ⟨rfl, by unfold recognised; decide, by decide, Or.inr rfl, by decide, by decide⟩

/-- C3: for every status-200 exchange with recognised field identifiers, a
declared Content-Length L <= 1461 and a full body read (L bytes, `moreFlags`
clear), `ParseJSONData` is called if and only if the last Content-Type value
delivered is, as a C string, exactly the 16 characters "application/json";
it is not called when no Content-Type field was delivered, nor for a value
that starts with "application/json" and goes on with a further character. -/
theorem C3_content_type_gate (x : Exchange) (h200 : x.status = 200)
    (hrec : recognised x.fields) (hL : declaredLength x ≤ sizeof_g_buff)
    (hn : x.bodyRet = (declaredLength x : Int)) (hm : x.bodyMore = false) :
    (Step.parseJSON ∈ (readResponse x).steps ↔
      ∃ v, lastValue 2 x.fields = some v ∧ cstr v = applicationJson) ∧
    (lastValue 2 x.fields = none → Step.parseJSON ∉ (readResponse x).steps) ∧
    (∀ c rest, c ≠ 0 → lastValue 2 x.fields = some (applicationJson ++ c :: rest) →
      Step.parseJSON ∉ (readResponse x).steps) := by
  obtain ⟨v, hlen, hjson, hrun⟩ := readResponse_inline x h200 hrec hL
  have hv : v.len ≤ sizeof_g_buff := by omega
  have hmod : ¬ (x.bodyRet % 2 ^ 32).toNat < v.len := by
    rw [hn, hlen]
    have h1 : (declaredLength x : Int) % 2 ^ 32 = (declaredLength x : Int) :=
      Int.emod_eq_of_lt (by omega) (by unfold sizeof_g_buff MAX_BUFF_SIZE at hL; omega)
    rw [h1]
    simp
  have hneg : ¬ x.bodyRet < 0 := by omega
  have key : Step.parseJSON ∈ (readResponse x).steps ↔
      ∃ w, lastValue 2 x.fields = some w ∧ cstr w = applicationJson := by
    rw [hrun]
    unfold readResponse_body
    simp only [readResponse_end_inline _ _ _ _ hv, if_neg hneg, hm, hmod, false_or,
      Bool.false_eq_true, if_false]
    cases hl : lastValue 2 x.fields with
    | none =>
      rw [hl] at hjson
      simp [hjson]
    | some w =>
      rw [hl] at hjson
      by_cases hw : cstr w = applicationJson
      · simp only [hw, if_true] at hjson
        simp only [hjson]
        constructor
        · intro _
          exact ⟨w, rfl, hw⟩
        · intro _
          have h10 : (1 : Int) ≠ 0 := by decide
          rw [if_pos h10]
          split_ifs <;> simp
      · simp only [hw, if_false] at hjson
        simp [hjson, hw]
  refine ⟨key, fun hnone h => ?_, fun c rest hc hsome h => ?_⟩
  · obtain ⟨w, hw, -⟩ := key.mp h
    rw [hnone] at hw
    cases hw
  · obtain ⟨w, hw, hw2⟩ := key.mp h
    rw [hsome] at hw
    cases hw
    have hlen2 := congrArg List.length hw2
    have hpre : cstr (applicationJson ++ c :: rest) =
        applicationJson ++ cstr (c :: rest) := by
      unfold cstr
      rw [List.takeWhile_append_of_pos]
      intro a ha
      revert a
      decide
    rw [hpre] at hlen2
    simp [cstr, List.takeWhile_cons, hc] at hlen2

/-- C3 witness: status 200, Content-Length 5, Content-Type application/json, 5
bytes read: `ParseJSONData` is called. -/
theorem C3_content_type_gate_witness :
    (jsonExchange.status = 200 ∧ recognised jsonExchange.fields ∧
      declaredLength jsonExchange ≤ sizeof_g_buff ∧
      jsonExchange.bodyRet = (declaredLength jsonExchange : Int) ∧
      jsonExchange.bodyMore = false) ∧
    (Step.parseJSON ∈ (readResponse jsonExchange).steps ↔
      ∃ v, lastValue 2 jsonExchange.fields = some v ∧ cstr v = applicationJson) :=
  ⟨⟨rfl, by unfold recognised; decide, by decide, by decide, rfl⟩,
   (C3_content_type_gate jsonExchange rfl (by unfold recognised; decide) (by decide)
    (by decide) rfl).1⟩

/-- C9 fails on the code: with status 200 and Content-Length 1461 (which is not
greater than sizeof(g_buff) = 1461, so the inline buffer is selected) and a
full read of 1461 bytes, the terminator write of line 496 is
`g_buff[1461]`, one past the last element of the 1461-byte array. -/
theorem C9_terminator_past_the_buffer :
    fullBufferExchange.status = 200 ∧ recognised fullBufferExchange.fields ∧
    declaredLength fullBufferExchange = 1461 ∧
    declaredLength fullBufferExchange ≤ sizeof_g_buff ∧
    fullBufferExchange.bodyRet = (declaredLength fullBufferExchange : Int) ∧
    fullBufferExchange.bodyMore = false ∧
    (readResponse fullBufferExchange).steps =
      [Step.readBody DataBuffer.g_buff 1461, Step.terminate DataBuffer.g_buff 1461] ∧
    ¬ ((1461 : Int) < (sizeof_g_buff : Int)) := by
  refine ⟨rfl, by unfold recognised; decide, by decide, by decide, by decide, rfl,
    by decide, by decide⟩

/-- C10 fails on the code: with status 200, Content-Length 5 and a body read of
3 bytes, `readResponse` takes the length-mismatch branch and returns 200 (the
status code still held in `retVal`), which is not negative. -/
theorem C10_mismatch_returns_status :
    shortBodyExchange.status = 200 ∧ recognised shortBodyExchange.fields ∧
    declaredLength shortBodyExchange = 5 ∧ shortBodyExchange.bodyRet = 3 ∧
    (readResponse shortBodyExchange).steps =
      [Step.readBody DataBuffer.g_buff 5, Step.lengthMismatch] ∧
    (readResponse shortBodyExchange).retVal = 200 ∧
    ¬ ((readResponse shortBodyExchange).retVal < 0) := by
  refine ⟨rfl, by unfold recognised; decide, by decide, rfl, by decide, by decide, by decide⟩

end Lab5

namespace Jsmn

/-- A token that fits a budget fits every larger budget. -/
lemma allocToken_mono {b b2 : Nat} {s s1 : Scan} {t : JsonToken}
    (h : allocToken b s t = .ok s1) (hb : b ≤ b2) : allocToken b2 s t = .ok s1 := by
  unfold allocToken at h ⊢
  by_cases hlt : s.tokens.length < b
  · have hlt2 : s.tokens.length < b2 := by omega
    rw [if_pos hlt] at h
    rw [if_pos hlt2]
    exact h
  · rw [if_neg hlt] at h
    cases h

/-- The same for an allocation followed by an update of the state. -/
lemma allocToken_map_mono {b b2 : Nat} {s s1 : Scan} {t : JsonToken} {k : Scan → Scan}
    (h : (allocToken b s t).map k = .ok s1) (hb : b ≤ b2) :
    (allocToken b2 s t).map k = .ok s1 := by
  cases ha : allocToken b s t with
  | error e => rw [ha] at h; cases h
  | ok s2 => rw [allocToken_mono ha hb]; rw [ha] at h; exact h

/-- A step that succeeds with a budget succeeds alike with a larger one. -/
lemma step_mono {body : List Nat} {b b2 : Nat} {s s1 : Scan} {c : Nat}
    (h : step body b s c = .ok s1) (hb : b ≤ b2) : step body b2 s c = .ok s1 := by
  unfold step at h ⊢
  by_cases h1 : c = 123 ∨ c = 91
  · rw [if_pos h1] at h ⊢
    exact allocToken_map_mono h hb
  · rw [if_neg h1] at h ⊢
    by_cases h2 : c = 125 ∨ c = 93
    · rw [if_pos h2] at h ⊢
      exact h
    · rw [if_neg h2] at h ⊢
      by_cases h3 : c = 34
      · rw [if_pos h3] at h ⊢
        cases hq : stringEnd (List.drop (s.pos + 1) body) (s.pos + 1) false with
        | none => rw [hq] at h; cases h
        | some q =>
          rw [hq] at h
          exact allocToken_map_mono h hb
      · rw [if_neg h3] at h ⊢
        by_cases h4 : isSeparator c = true
        · rw [if_pos h4] at h ⊢
          exact h
        · rw [if_neg h4] at h ⊢
          exact allocToken_map_mono h hb

/-- A scan that succeeds with a budget gives the same tokens with a larger one. -/
lemma scan_mono {body : List Nat} {b b2 : Nat} (hb : b ≤ b2) :
    ∀ (fuel : Nat) (s : Scan) (r : List JsonToken),
      scan body b fuel s = .ok r → scan body b2 fuel s = .ok r := by
  intro fuel
  induction fuel with
  | zero => intro s r h; simp [scan] at h
  | succ n ih =>
    intro s r h
    unfold scan at h ⊢
    cases hc : body.get? s.pos with
    | none => rw [hc] at h; exact h
    | some c =>
      rw [hc] at h
      dsimp only at h ⊢
      cases hs : step body b s c with
      | error e => rw [hs] at h; cases h
      | ok s1 =>
        rw [step_mono hs hb]
        rw [hs] at h
        exact ih s1 r h

/-- C4: tokenizing the 17-byte body {"a":1,"b":[2,3]} with any token budget of
at least 7 succeeds with 7 tokens in document order: the object, the string
a, the primitive 1, the string b, the array (size 2), the primitives 2 and
3; every token has start <= end <= 17; with budget 2 the result is the
not-enough-tokens error, not the parse error. -/
theorem C4_tokenizer_example (budget : Nat) (hb : 7 ≤ budget) :
    tokenize exampleBody budget = .ok
      [{ kind := JsonKind.object, start := 0, stop := 17, size := 4 },
       { kind := JsonKind.string, start := 2, stop := 3, size := 0 },
       { kind := JsonKind.primitive, start := 5, stop := 6, size := 0 },
       { kind := JsonKind.string, start := 8, stop := 9, size := 0 },
       { kind := JsonKind.array, start := 11, stop := 16, size := 2 },
       { kind := JsonKind.primitive, start := 12, stop := 13, size := 0 },
       { kind := JsonKind.primitive, start := 14, stop := 15, size := 0 }] ∧
    (∀ toks, tokenize exampleBody budget = .ok toks →
      toks.length = 7 ∧
      toks.map (fun t => tokenText exampleBody t) =
        [exampleBody, [('a').toNat], [('1').toNat], [('b').toNat],
         [('[').toNat, ('2').toNat, (',').toNat, ('3').toNat, (']').toNat],
         [('2').toNat], [('3').toNat]] ∧
      ∀ t ∈ toks, t.start ≤ t.stop ∧ t.stop ≤ exampleBody.length) ∧
    exampleBody.length = 17 ∧
    tokenize exampleBody 2 = .error TokError.notEnoughTokens ∧
    tokenize exampleBody 2 ≠ .error TokError.parseError := by
  have h7 : tokenize exampleBody budget = .ok
      [{ kind := JsonKind.object, start := 0, stop := 17, size := 4 },
       { kind := JsonKind.string, start := 2, stop := 3, size := 0 },
       { kind := JsonKind.primitive, start := 5, stop := 6, size := 0 },
       { kind := JsonKind.string, start := 8, stop := 9, size := 0 },
       { kind := JsonKind.array, start := 11, stop := 16, size := 2 },
       { kind := JsonKind.primitive, start := 12, stop := 13, size := 0 },
       { kind := JsonKind.primitive, start := 14, stop := 15, size := 0 }] :=
    scan_mono hb _ _ _ (by rfl)
  refine ⟨h7, ?_, rfl, by rfl, ?_⟩
  · intro toks ht
    rw [h7] at ht
    cases ht
    refine ⟨rfl, by decide, by decide⟩
  · have h2 : tokenize exampleBody 2 = .error TokError.notEnoughTokens := by rfl
    rw [h2]
    intro h
    cases h

/-- C4 witness: the budget 7. -/
theorem C4_tokenizer_example_witness :
    7 ≤ 7 ∧ (tokenize exampleBody 7).toOption.map List.length = some 7 :=
  ⟨by decide, by rw [(C4_tokenizer_example 7 (by decide)).1]; rfl⟩

end Jsmn

namespace Lab6

/-! ### The command-frame server -/

/-- One masked write: the selected pin takes the bit of the value. -/
lemma testBit_GPIOPinWrite (data pins val i : Nat) :
    (GPIOPinWrite data pins val).testBit i =
      if pins.testBit i then val.testBit i else data.testBit i := by
  unfold GPIOPinWrite
  rw [Nat.testBit_lor, Nat.testBit_xor, Nat.testBit_and, Nat.testBit_and]
  cases data.testBit i <;> cases pins.testBit i <;> cases val.testBit i <;> rfl

/-- The copy loop keeps the first 20 bytes. -/
lemma byteAt_copyReceiveBuffer (BsdBuf : List Nat) (i : Nat) (hi : i < 20) :
    byteAt (copyReceiveBuffer BsdBuf) i = byteAt BsdBuf i := by
  simp [byteAt, copyReceiveBuffer, List.getD_eq_getElem?_getD, List.getElem?_map,
    List.getElem?_range hi]

/-- C5: for every content of the receive buffer and every previous state of
port F, after the Interpret step output 1 (PF1) is on if and only if byte 5
equals the character 1 (0x31), and output 2 (PF2) is on if and only if byte
12 equals the character 1; so each output is a function of its own byte
only. The bytes tested are bytes 5 and 12 of `uBuf.BsdBuf`, which the copy
loop puts into `ReceiveBuffer`. -/
theorem C5_flag_interpretation (buf : List Nat) (portF : Nat) :
    (PF1 (interpret buf portF) = true ↔ byteAt buf 5 = 0x31) ∧
    (PF2 (interpret buf portF) = true ↔ byteAt buf 12 = 0x31) ∧
    (PF1 (interpret (copyReceiveBuffer buf) portF) = true ↔ byteAt buf 5 = 0x31) ∧
    (PF2 (interpret (copyReceiveBuffer buf) portF) = true ↔ byteAt buf 12 = 0x31) ∧
    (byteAt buf 5 = ('1').toNat → byteAt buf 12 = ('0').toNat →
      (PF1 (interpret buf portF), PF2 (interpret buf portF)) = (true, false)) := by
  have key : ∀ b : List Nat,
      (PF1 (interpret b portF) = true ↔ byteAt b 5 = 0x31) ∧
      (PF2 (interpret b portF) = true ↔ byteAt b 12 = 0x31) := by
    intro b
    have e1 : GPIO_PIN_1 = 2 := rfl
    have e2 : GPIO_PIN_2 = 4 := rfl
    have c1 : char_1 = 0x31 := rfl
    have t21 : Nat.testBit 2 1 = true := by decide
    have t22 : Nat.testBit 2 2 = false := by decide
    have t41 : Nat.testBit 4 1 = false := by decide
    have t42 : Nat.testBit 4 2 = true := by decide
    have t01 : Nat.testBit 0 1 = false := by decide
    have t02 : Nat.testBit 0 2 = false := by decide
    unfold PF1 PF2 interpret
    rw [e1, e2, c1]
    constructor
    · by_cases h5 : byteAt b 5 = 0x31 <;> by_cases h12 : byteAt b 12 = 0x31 <;>
        simp [h5, h12, testBit_GPIOPinWrite, t21, t41, t01]
    · by_cases h5 : byteAt b 5 = 0x31 <;> by_cases h12 : byteAt b 12 = 0x31 <;>
        simp [h5, h12, testBit_GPIOPinWrite, t22, t42, t02]
  refine ⟨(key buf).1, (key buf).2, ?_, ?_, ?_⟩
  · rw [(key (copyReceiveBuffer buf)).1, byteAt_copyReceiveBuffer buf 5 (by decide)]
  · rw [(key (copyReceiveBuffer buf)).2, byteAt_copyReceiveBuffer buf 12 (by decide)]
  · intro h5 h12
    have h5b : byteAt buf 5 = 0x31 := h5
    have h12b : ¬ byteAt buf 12 = 0x31 := by rw [h12]; decide
    have a := (key buf).1.mpr h5b
    have b : PF2 (interpret buf portF) = false := by
      cases hb : PF2 (interpret buf portF)
      · rfl
      · exact absurd ((key buf).2.mp hb) h12b
    rw [a, b]

/-- C5 witness: byte 5 = 1 and byte 12 = 0 give the outputs (true, false). -/
theorem C5_flag_interpretation_witness :
    (byteAt exampleFrame 5 = ('1').toNat ∧ byteAt exampleFrame 12 = ('0').toNat) ∧
      (PF1 (interpret exampleFrame 0), PF2 (interpret exampleFrame 0)) = (true, false) :=
  ⟨⟨by decide, by decide⟩,
   (C5_flag_interpretation exampleFrame 0).2.2.2.2 (by decide) (by decide)⟩

/-- Storing received bytes keeps the size of the buffer. -/
lemma length_storeAt (buf : List Nat) (off : Nat) (data : List Nat) :
    (storeAt buf off data).length = buf.length := by
  simp only [storeAt, List.length_append, List.length_take, List.length_drop]
  omega

/-- The calls of one round: a receive, a send of the one reply byte, a close
of the accepted socket. -/
lemma replyRound_calls (t : Transport) (N : Int) (rs : Int) (s : Server)
    (hbuf : 0 < s.BsdBuf.length) :
    (replyRound t N rs s).2.calls = s.calls ++
      [Call.recv N ((BUF_SIZE : Int) - rs) rs, Call.send N [replyByte (t.adc s.sends)],
       Call.close N] := by
  have hlen := length_storeAt s.BsdBuf ((BUF_SIZE : Int) - rs).toNat
    (List.take rs.toNat (t.recv s.recvs).2)
  cases hst : storeAt s.BsdBuf ((BUF_SIZE : Int) - rs).toNat
      (List.take rs.toNat (t.recv s.recvs).2) with
  | nil => rw [hst] at hlen; simp at hlen; omega
  | cons b rest => simp [replyRound, sl_Close, hst]

/-- A round makes one receive call. -/
lemma replyRound_recvs (t : Transport) (N : Int) (rs : Int) (s : Server) :
    (replyRound t N rs s).2.recvs = s.recvs + 1 := by
  simp [replyRound, sl_Close]

/-- The status of a round is the return value of its send. -/
lemma replyRound_status (t : Transport) (N : Int) (rs : Int) (s : Server) :
    (replyRound t N rs s).1 = t.send s.sends := by
  simp [replyRound]

/-- A round makes one close call. -/
lemma replyRound_closes (t : Transport) (N : Int) (rs : Int) (s : Server) :
    (replyRound t N rs s).2.closes = s.closes + 1 := by
  simp [replyRound, sl_Close]

/-- The `do` loop runs its body once. -/
lemma recvLoop_succ (t : Transport) (S N : Int) (fuel : Nat) (rs : Int) (s : Server) :
    recvLoop t S N (fuel + 1) rs s = some
      (if (replyRound t N rs s).1 ≤ 0 then
        Flow.returned TCP_RECV_ERROR
          (sl_Close t S (sl_Close t N (replyRound t N rs s).2).2).2
      else Flow.next (replyRound t N rs s).2) := by
  have hneg : TCP_RECV_ERROR < 0 := by decide
  have hz : ¬ ((0 : Int) > 0) := by decide
  simp only [recvLoop, if_pos hneg, if_neg hz]
  split_ifs <;> rfl

/-- The `while` loop ends after one round, given two units of fuel. -/
lemma packetLoop_add_two (t : Transport) (S N : Int) (fuel : Nat) (s : Server) :
    packetLoop t S N (fuel + 2) 0 s = some
      (if (replyRound t N (BUF_SIZE : Int) s).1 ≤ 0 then
        Flow.returned TCP_RECV_ERROR
          (sl_Close t S (sl_Close t N (replyRound t N (BUF_SIZE : Int) s).2).2).2
      else Flow.next (replyRound t N (BUF_SIZE : Int) s).2) := by
  have h0 : (0 : Nat) < NO_OF_PACKETS := by decide
  have h1 : ¬ (1001 : Nat) < NO_OF_PACKETS := by decide
  rw [packetLoop, if_pos h0, recvLoop_succ]
  split_ifs
  · rfl
  · simp only [packetLoop, if_neg h1]

/-- With less fuel the `while` loop does not finish. -/
lemma packetLoop_lt_two (t : Transport) (S N : Int) (fuel : Nat) (hf : fuel < 2)
    (s : Server) : packetLoop t S N fuel 0 s = none := by
  have h0 : (0 : Nat) < NO_OF_PACKETS := by decide
  match fuel, hf with
  | 0, _ => rfl
  | 1, _ => simp [packetLoop, recvLoop, h0]

end Lab6

namespace Lab6

/-- Every run of the server proper, by cases on the statuses it receives: the
value returned and the exact sequence of socket calls. There is at most one
receive-interpret-reply round. -/
lemma BsdTcpServer_serve_cases (t : Transport) (s : Server) (n : Nat)
    (hbuf : 0 < s.BsdBuf.length) :
    ∃ r, BsdTcpServer_serve t s (n + 2) = some r ∧ r.final.recvs ≤ s.recvs + 1 ∧
      ((t.socket < 0 ∧ r.value = t.socket ∧ r.final.calls = s.calls ++ [Call.socket]) ∨
       (0 ≤ t.socket ∧ t.bind < 0 ∧ r.value = t.bind ∧
          r.final.calls = s.calls ++ [Call.socket, Call.bind t.socket, Call.close t.socket]) ∨
       (0 ≤ t.socket ∧ 0 ≤ t.bind ∧ t.listen < 0 ∧ r.value = t.listen ∧
          r.final.calls = s.calls ++
            [Call.socket, Call.bind t.socket, Call.listen t.socket, Call.close t.socket]) ∨
       (0 ≤ t.socket ∧ 0 ≤ t.bind ∧ 0 ≤ t.listen ∧ t.accept < 0 ∧ r.value = t.accept ∧
          r.final.calls = s.calls ++
            [Call.socket, Call.bind t.socket, Call.listen t.socket, Call.accept t.socket,
             Call.close t.socket]) ∨
       (0 ≤ t.socket ∧ 0 ≤ t.bind ∧ 0 ≤ t.listen ∧ 0 ≤ t.accept ∧ t.send s.sends ≤ 0 ∧
          r.value = TCP_RECV_ERROR ∧
          r.final.calls = s.calls ++
            [Call.socket, Call.bind t.socket, Call.listen t.socket, Call.accept t.socket,
             Call.recv t.accept ((BUF_SIZE : Int) - (BUF_SIZE : Int)) (BUF_SIZE : Int),
             Call.send t.accept [replyByte (t.adc s.sends)],
             Call.close t.accept, Call.close t.accept, Call.close t.socket]) ∨
       (0 ≤ t.socket ∧ 0 ≤ t.bind ∧ 0 ≤ t.listen ∧ 0 ≤ t.accept ∧ 0 < t.send s.sends ∧
          t.close (s.closes + 1) < 0 ∧ r.value = t.close (s.closes + 1) ∧
          r.final.calls = s.calls ++
            [Call.socket, Call.bind t.socket, Call.listen t.socket, Call.accept t.socket,
             Call.recv t.accept ((BUF_SIZE : Int) - (BUF_SIZE : Int)) (BUF_SIZE : Int),
             Call.send t.accept [replyByte (t.adc s.sends)],
             Call.close t.accept, Call.close t.accept]) ∨
       (0 ≤ t.socket ∧ 0 ≤ t.bind ∧ 0 ≤ t.listen ∧ 0 ≤ t.accept ∧ 0 < t.send s.sends ∧
          0 ≤ t.close (s.closes + 1) ∧
          ((t.close (s.closes + 2) < 0 ∧ r.value = t.close (s.closes + 2)) ∨
           (0 ≤ t.close (s.closes + 2) ∧ r.value = SUCCESS)) ∧
          r.final.calls = s.calls ++
            [Call.socket, Call.bind t.socket, Call.listen t.socket, Call.accept t.socket,
             Call.recv t.accept ((BUF_SIZE : Int) - (BUF_SIZE : Int)) (BUF_SIZE : Int),
             Call.send t.accept [replyByte (t.adc s.sends)],
             Call.close t.accept, Call.close t.accept, Call.close t.socket])) := by
  simp only [BsdTcpServer_serve, packetLoop_add_two]
  split_ifs with h1 h2 h3 h4 h5
  · exact ⟨_, rfl, by simp, Or.inl ⟨h1, rfl, rfl⟩⟩
  · refine ⟨_, rfl, by simp [sl_Close], Or.inr (Or.inl ⟨by omega, h2, rfl, ?_⟩)⟩
    simp [sl_Close]
  · refine ⟨_, rfl, by simp [sl_Close], Or.inr (Or.inr (Or.inl ⟨by omega, by omega, h3, rfl, ?_⟩))⟩
    simp [sl_Close]
  · refine ⟨_, rfl, by simp [sl_Close],
      Or.inr (Or.inr (Or.inr (Or.inl ⟨by omega, by omega, by omega, h4, rfl, ?_⟩)))⟩
    simp [sl_Close]
  · rw [replyRound_status] at h5
    refine ⟨_, rfl, by simp [sl_Close, replyRound_recvs],
      Or.inr (Or.inr (Or.inr (Or.inr (Or.inl
        ⟨by omega, by omega, by omega, by omega, h5, rfl, ?_⟩))))⟩
    simp [sl_Close, replyRound_calls, hbuf]
  · rw [replyRound_status] at h5
    dsimp only
    split_ifs with h6 h7
    · refine ⟨_, rfl, by simp [sl_Close, replyRound_recvs],
        Or.inr (Or.inr (Or.inr (Or.inr (Or.inr (Or.inl
          ⟨by omega, by omega, by omega, by omega, by simpa using h5, ?_, ?_, ?_⟩)))))⟩
      · simpa [sl_Close, replyRound_closes] using h6
      · simp [sl_Close, replyRound_closes]
      · simp [sl_Close, replyRound_calls, hbuf]
    · refine ⟨_, rfl, by simp [sl_Close, replyRound_recvs],
        Or.inr (Or.inr (Or.inr (Or.inr (Or.inr (Or.inr
          ⟨by omega, by omega, by omega, by omega, by simpa using h5, ?_, Or.inl ⟨?_, ?_⟩, ?_⟩)))))⟩
      · simpa [sl_Close, replyRound_closes] using h6
      · simpa [sl_Close, replyRound_closes] using h7
      · simp [sl_Close, replyRound_closes]
      · simp [sl_Close, replyRound_calls, hbuf]
    · refine ⟨_, rfl, by simp [sl_Close, replyRound_recvs],
        Or.inr (Or.inr (Or.inr (Or.inr (Or.inr (Or.inr
          ⟨by omega, by omega, by omega, by omega, by simpa using h5, ?_, Or.inr ⟨?_, rfl⟩, ?_⟩)))))⟩
      · simpa [sl_Close, replyRound_closes] using h6
      · simpa [sl_Close, replyRound_closes] using h7
      · simp [sl_Close, replyRound_calls, hbuf]

/-- With less than two units of fuel a run that ends has not reached the
packet loop: it made no send call. -/
lemma BsdTcpServer_serve_lt_two (t : Transport) (s : Server) (fuel : Nat) (hf : fuel < 2)
    (r : Run) (hrun : BsdTcpServer_serve t s fuel = some r) :
    (t.socket < 0 ∨ t.bind < 0 ∨ t.listen < 0 ∨ t.accept < 0) ∧
    ∀ c ∈ r.final.calls, c ∈ s.calls ∨ c = Call.socket ∨ c = Call.bind t.socket ∨
      c = Call.listen t.socket ∨ c = Call.accept t.socket ∨ c = Call.close t.socket := by
  simp only [BsdTcpServer_serve, packetLoop_lt_two t _ _ fuel hf] at hrun
  split_ifs at hrun with h1 h2 h3 h4
  all_goals
    simp only [Option.some.injEq] at hrun
    subst hrun
    refine ⟨by tauto, ?_⟩
    intro c hc
    simp [sl_Close] at hc
    tauto

/-- Two units of fuel are as good as more. -/
lemma BsdTcpServer_serve_add_two (t : Transport) (s : Server) (n : Nat) :
    BsdTcpServer_serve t s (n + 2) = BsdTcpServer_serve t s (0 + 2) := by
  simp only [BsdTcpServer_serve, packetLoop_add_two]

/-- The reply byte of a 12-bit sample. -/
lemma replyByte_eq (s : Nat) (hs : s ≤ 4095) : replyByte s = s / 16 := by
  unfold replyByte toByte
  have h : s % 2 ^ 32 = s := Nat.mod_eq_of_lt (by omega)
  rw [h]
  omega

/-- The `sl_Send` calls of a run: exactly one, of the one reply byte on the
accepted socket, when socket, bind, listen and accept succeed, and none
otherwise. -/
lemma BsdTcpServer_sendCalls (t : Transport) (portF fuel : Nat) (r : Run)
    (hrun : BsdTcpServer t portF fuel = some r) :
    sendCalls r.final.calls =
      if 0 ≤ t.socket ∧ 0 ≤ t.bind ∧ 0 ≤ t.listen ∧ 0 ≤ t.accept then
        [Call.send t.accept [replyByte (t.adc 0)]]
      else [] := by
  unfold BsdTcpServer at hrun
  by_cases hf : fuel < 2
  · obtain ⟨hneg, hcalls⟩ := BsdTcpServer_serve_lt_two t _ fuel hf r hrun
    have hc : ¬ (0 ≤ t.socket ∧ 0 ≤ t.bind ∧ 0 ≤ t.listen ∧ 0 ≤ t.accept) := by omega
    rw [if_neg hc]
    unfold sendCalls
    rw [List.filter_eq_nil_iff]
    intro c hmem
    have h := hcalls c hmem
    simp only [initialServer, List.not_mem_nil, false_or] at h
    rcases h with h | h | h | h | h <;> subst h <;> simp
  · obtain ⟨n, rfl⟩ : ∃ n, fuel = n + 2 := ⟨fuel - 2, by omega⟩
    obtain ⟨r2, hr2, -, hc⟩ := BsdTcpServer_serve_cases t (initialServer portF) n
      (by simp [initialServer, BUF_SIZE])
    rw [hrun] at hr2
    cases hr2
    have hs0 : (initialServer portF).sends = 0 := rfl
    have hcalls0 : (initialServer portF).calls = [] := rfl
    rw [hs0, hcalls0] at hc
    rcases hc with h | h | h | h | h | h | h
    · have hc : ¬ (0 ≤ t.socket ∧ 0 ≤ t.bind ∧ 0 ≤ t.listen ∧ 0 ≤ t.accept) := by omega
      rw [if_neg hc, h.2.2]
      simp [sendCalls]
    · have hc : ¬ (0 ≤ t.socket ∧ 0 ≤ t.bind ∧ 0 ≤ t.listen ∧ 0 ≤ t.accept) := by omega
      rw [if_neg hc, h.2.2.2]
      simp [sendCalls]
    · have hc : ¬ (0 ≤ t.socket ∧ 0 ≤ t.bind ∧ 0 ≤ t.listen ∧ 0 ≤ t.accept) := by omega
      rw [if_neg hc, h.2.2.2.2]
      simp [sendCalls]
    · have hc : ¬ (0 ≤ t.socket ∧ 0 ≤ t.bind ∧ 0 ≤ t.listen ∧ 0 ≤ t.accept) := by omega
      rw [if_neg hc, h.2.2.2.2.2]
      simp [sendCalls]
    · have hc : 0 ≤ t.socket ∧ 0 ≤ t.bind ∧ 0 ≤ t.listen ∧ 0 ≤ t.accept :=
        ⟨h.1, h.2.1, h.2.2.1, h.2.2.2.1⟩
      rw [if_pos hc, h.2.2.2.2.2.2]
      simp [sendCalls]
    · have hc : 0 ≤ t.socket ∧ 0 ≤ t.bind ∧ 0 ≤ t.listen ∧ 0 ≤ t.accept :=
        ⟨h.1, h.2.1, h.2.2.1, h.2.2.2.1⟩
      rw [if_pos hc, h.2.2.2.2.2.2.2]
      simp [sendCalls]
    · have hc : 0 ≤ t.socket ∧ 0 ≤ t.bind ∧ 0 ≤ t.listen ∧ 0 ≤ t.accept :=
        ⟨h.1, h.2.1, h.2.2.1, h.2.2.2.1⟩
      rw [if_pos hc, h.2.2.2.2.2.2.2]
      simp [sendCalls]

/-- C6: for every stored sample s in [0,4095] (the value of
`ui32ADCValueStore` when the reply is built), a run of `BsdTcpServer` in
which socket, bind, listen and accept succeed makes exactly one `sl_Send`
call, on the accepted socket, and that call sends exactly one byte, equal to
floor(s/16), which is at most 255; a run in which one of them fails sends
nothing, so no run sends more than the one byte. No rounding: 4095 gives
255, 15 gives 0, 16 gives 1. -/
theorem C6_reply_byte (t : Transport) (portF fuel s : Nat) (r : Run)
    (hadc : ∀ k, t.adc k = s) (hs : s ≤ 4095)
    (hrun : BsdTcpServer t portF fuel = some r) :
    replyByte s = s / 16 ∧ s / 16 ≤ 255 ∧
    (∀ sock data, Call.send sock data ∈ r.final.calls → data = [s / 16]) ∧
    (0 ≤ t.socket → 0 ≤ t.bind → 0 ≤ t.listen → 0 ≤ t.accept →
      Call.send t.accept [s / 16] ∈ r.final.calls) ∧
    replyByte 4095 = 255 ∧ replyByte 15 = 0 ∧ replyByte 16 = 1 ∧
    (0 ≤ t.socket → 0 ≤ t.bind → 0 ≤ t.listen → 0 ≤ t.accept →
      sendCalls r.final.calls = [Call.send t.accept [s / 16]]) ∧
    (sendCalls r.final.calls).length ≤ 1 ∧
    ((sendCalls r.final.calls).map (fun c => match c with
        | Call.send _ data => data.length
        | _ => 0)).sum ≤ 1 := by
  have hbyte := replyByte_eq s hs
  have hsend := BsdTcpServer_sendCalls t portF fuel r hrun
  rw [hadc, hbyte] at hsend
  have hmemsend : ∀ c, c ∈ r.final.calls → (∃ sock data, c = Call.send sock data) →
      c ∈ sendCalls r.final.calls := by
    intro c hc hex
    obtain ⟨sock, data, rfl⟩ := hex
    simp [sendCalls, hc]
  refine ⟨hbyte, by omega, ?_, ?_, by decide, by decide, by decide, ?_, ?_, ?_⟩
  · intro sock data hmem
    have h := hmemsend _ hmem ⟨sock, data, rfl⟩
    rw [hsend] at h
    split_ifs at h
    · simp only [List.mem_singleton, Call.send.injEq] at h
      exact h.2
    · simp at h
  · intro h1 h2 h3 h4
    have hc : 0 ≤ t.socket ∧ 0 ≤ t.bind ∧ 0 ≤ t.listen ∧ 0 ≤ t.accept := ⟨h1, h2, h3, h4⟩
    rw [if_pos hc] at hsend
    have hin : Call.send t.accept [s / 16] ∈ sendCalls r.final.calls := by
      rw [hsend]; simp
    unfold sendCalls at hin
    exact (List.mem_filter.mp hin).1
  · intro h1 h2 h3 h4
    have hc : 0 ≤ t.socket ∧ 0 ≤ t.bind ∧ 0 ≤ t.listen ∧ 0 ≤ t.accept := ⟨h1, h2, h3, h4⟩
    rw [hsend, if_pos hc]
  · rw [hsend]
    split_ifs <;> simp
  · rw [hsend]
    split_ifs <;> simp

/-- C6 witness: the sample 4095 with a peer for which every call succeeds: the
one byte 255 is sent on the accepted socket. -/
theorem C6_reply_byte_witness :
    ((∀ k, (steadyPeer 4095).adc k = 4095) ∧ 4095 ≤ 4095 ∧
      (BsdTcpServer (steadyPeer 4095) 0 2).isSome = true) ∧
    ∀ r, BsdTcpServer (steadyPeer 4095) 0 2 = some r →
      Call.send 1 [255] ∈ r.final.calls :=
  ⟨⟨fun _ => rfl, by decide, by decide⟩,
   fun r hr => (C6_reply_byte (steadyPeer 4095) 0 2 4095 r (fun _ => rfl) (by decide) hr).2.2.2.1
     (by decide) (by decide) (by decide) (by decide)⟩

/-- C7: for every behaviour of the socket layer (every status returned by
socket, bind, listen, accept, recv, send and close, and every data received),
`BsdTcpServer` returns, after at most NO_OF_PACKETS = 1000 rounds; the
result does not depend on the fuel once it is at least 2. Whenever it returns
SUCCESS, and on every run in which no call reports a failure, both the
accepted socket and the listening socket have been closed at the return; a
run without failure whose send delivers its byte returns SUCCESS. -/
theorem C7_bounded_server_loop (t : Transport) (portF fuel : Nat) (hfuel : 2 ≤ fuel) :
    ∃ r, BsdTcpServer t portF fuel = some r ∧
      BsdTcpServer t portF 2 = some r ∧
      rounds r ≤ NO_OF_PACKETS ∧
      (r.value = SUCCESS →
        Call.close t.accept ∈ r.final.calls ∧ Call.close t.socket ∈ r.final.calls) ∧
      (noFailure t →
        Call.close t.accept ∈ r.final.calls ∧ Call.close t.socket ∈ r.final.calls ∧
        (0 < t.send 0 → r.value = SUCCESS)) := by
  obtain ⟨n, rfl⟩ : ∃ n, fuel = n + 2 := ⟨fuel - 2, by omega⟩
  have hbuf : 0 < (initialServer portF).BsdBuf.length := by simp [initialServer, BUF_SIZE]
  obtain ⟨r, hr, hrecv, hc⟩ := BsdTcpServer_serve_cases t (initialServer portF) n hbuf
  have hsame : BsdTcpServer_serve t (initialServer portF) (0 + 2) = some r := by
    rw [← BsdTcpServer_serve_add_two t (initialServer portF) n]
    exact hr
  have hS : SUCCESS = 0 := rfl
  have hE : TCP_RECV_ERROR < 0 := by decide
  have h0 : (initialServer portF).recvs = 0 := rfl
  have hs0 : (initialServer portF).sends = 0 := rfl
  have hc1 : (initialServer portF).closes = 0 := rfl
  rw [hs0, hc1] at hc
  refine ⟨r, hr, hsame, ?_, ?_, ?_⟩
  · unfold rounds NO_OF_PACKETS
    omega
  · intro hv
    rw [hS] at hv
    rcases hc with h | h | h | h | h | h | h
    · omega
    · omega
    · omega
    · omega
    · omega
    · omega
    · rw [h.2.2.2.2.2.2.2]
      simp
  · intro hnf
    obtain ⟨f1, f2, f3, f4, -, f6, f7⟩ := hnf
    rcases hc with h | h | h | h | h | h | h
    · omega
    · omega
    · omega
    · omega
    · rw [h.2.2.2.2.2.2]
      refine ⟨by simp, by simp, fun hp => ?_⟩
      omega
    · have := f7 (0 + 1)
      omega
    · rw [h.2.2.2.2.2.2.2]
      refine ⟨by simp, by simp, fun _ => ?_⟩
      rcases h.2.2.2.2.2.2.1 with h2 | h2
      · have := f7 (0 + 2)
        omega
      · exact h2.2

/-- C7 witness: a peer that keeps sending, fuel 5: the server returns SUCCESS
after one round with both sockets closed. -/
theorem C7_bounded_server_loop_witness :
    2 ≤ 5 ∧ ∃ r, BsdTcpServer (steadyPeer 0) 0 5 = some r ∧ rounds r ≤ NO_OF_PACKETS := by
  obtain ⟨r, h1, -, h2, -⟩ := C7_bounded_server_loop (steadyPeer 0) 0 5 (by decide)
  exact ⟨by decide, r, h1, h2⟩

end Lab6

namespace Lab5

/-! ### The response reader: oversized bodies, other statuses, error paths -/

/-- C11 fails on the code: with status 200 and Content-Length 2000 (more than
sizeof(g_buff) = 1461) `readResponse` calls malloc(2000); when the allocation
succeeds it takes the branch of lines 473-478, returns -1 and frees the
buffer without reading the body; when the allocation fails (NULL) it goes on
to read the body into the NULL pointer and to write the terminator there. -/
theorem C11_allocation_check_inverted :
    (largeBodyExchange true).status = 200 ∧
    declaredLength (largeBodyExchange true) = 2000 ∧ sizeof_g_buff < 2000 ∧
    readResponse (largeBodyExchange true) =
      { retVal := -1, steps := [Step.malloc 2000, Step.allocationFailure, Step.free] } ∧
    readResponse (largeBodyExchange false) =
      { retVal := 0
        steps := [Step.malloc 2000, Step.readBody DataBuffer.null 2000,
                  Step.terminate DataBuffer.null 2000] } := by
  refine ⟨rfl, by decide, by decide, by decide, by decide⟩

/-- C12: for every positive status code other than 200 (404 included)
`readResponse` calls `FlushHTTPResponse` exactly once, does not call
`ParseJSONData`, and makes no `HTTPCli_readResponseBody` call of its own (so
it reads nothing into `g_buff`). -/
theorem C12_other_status_drained (x : Exchange) (hpos : 0 < x.status)
    (hne : x.status ≠ 200) :
    (readResponse x).steps.count Step.flush = 1 ∧
    Step.parseJSON ∉ (readResponse x).steps ∧
    ∀ b len, Step.readBody b len ∉ (readResponse x).steps := by
  have hgt : x.status > 0 := hpos
  have hend : ∀ steps, readResponse_end 0 0 DataBuffer.null steps =
      { retVal := 0, steps := steps } := fun steps =>
    readResponse_end_inline 0 0 DataBuffer.null steps (by decide)
  unfold readResponse
  simp only [if_pos hgt, if_neg hne, hend]
  split_ifs
  · refine ⟨by decide, by decide, fun b len => by simp⟩
  · refine ⟨by decide, by decide, fun b len => by simp⟩

/-- C12 witness: status 404. -/
theorem C12_other_status_drained_witness :
    (0 < notFoundExchange.status ∧ notFoundExchange.status ≠ 200) ∧
      (readResponse notFoundExchange).steps.count Step.flush = 1 :=
  ⟨⟨by decide, by decide⟩, (C12_other_status_drained notFoundExchange (by decide) (by decide)).1⟩

/-- C13 (as amended): for every positive status code other than 200 (404 and
every other code) `readResponse` returns 0, the value it also returns for a
fully read status-200 exchange. -/
theorem C13_other_status_returns_zero (x : Exchange) (hpos : 0 < x.status)
    (hne : x.status ≠ 200) : (readResponse x).retVal = 0 := by
  have hgt : x.status > 0 := hpos
  have hend : ∀ steps, readResponse_end 0 0 DataBuffer.null steps =
      { retVal := 0, steps := steps } := fun steps =>
    readResponse_end_inline 0 0 DataBuffer.null steps (by decide)
  unfold readResponse
  simp only [if_pos hgt, if_neg hne, hend]
  split_ifs <;> rfl

/-- C13 witness: status 404 returns 0. -/
theorem C13_other_status_returns_zero_witness :
    (0 < notFoundExchange.status ∧ notFoundExchange.status ≠ 200) ∧
      (readResponse notFoundExchange).retVal = 0 :=
  ⟨⟨by decide, by decide⟩,
   C13_other_status_returns_zero notFoundExchange (by decide) (by decide)⟩

/-- C13 as stated fails: with status 404 `readResponse` returns 0, which is
the value it returns for the fully read status-200 exchange `jsonExchange`. -/
theorem C13_other_status_counterexample :
    0 < notFoundExchange.status ∧ notFoundExchange.status ≠ 200 ∧
    (readResponse notFoundExchange).steps = [Step.fileNotFound, Step.flush] ∧
    (readResponse notFoundExchange).retVal = 0 ∧
    jsonExchange.status = 200 ∧
    jsonExchange.bodyRet = (declaredLength jsonExchange : Int) ∧
    (readResponse jsonExchange).retVal = 0 ∧
    ¬ ((readResponse notFoundExchange).retVal ≠ (readResponse jsonExchange).retVal) := by
  refine ⟨by decide, by decide, by decide, by decide, rfl, by decide, by decide, by decide⟩

/-- The steps and the value returned on every path of a status-200 exchange:
no path calls `FlushHTTPResponse`; the wrong-identifier branch and the
branch that reports an allocation failure return -1; the read-failure
branch returns the negative read result. -/
lemma readResponse_200_paths (x : Exchange) (h200 : x.status = 200) :
    Step.flush ∉ (readResponse x).steps ∧
    (Step.wrongFilterId ∈ (readResponse x).steps → (readResponse x).retVal = -1) ∧
    (Step.allocationFailure ∈ (readResponse x).steps → (readResponse x).retVal = -1) ∧
    (Step.readFailure ∈ (readResponse x).steps →
      (readResponse x).retVal = x.bodyRet ∧ x.bodyRet < 0) := by
  have h1 : (200 : Int) > 0 := by decide
  unfold readResponse
  simp only [h200]
  rw [if_pos h1, if_pos trivial]
  cases readFields x.strtoul x.fields { len := 0, json := 0, moreFlags := true } with
  | error v =>
    simp only [readResponse_end]
    split_ifs <;> simp
  | ok v =>
    simp only [readResponse_body, readResponse_end]
    split_ifs <;> simp_all

/-- A field identifier outside {0, 1, 2} ends the field loop by `goto end`. -/
lemma readFields_unrecognised (strtoul : List Nat → Nat) (fields : List FieldRead)
    (h : ¬ recognised fields) (acc : Fields) :
    ∃ v, readFields strtoul fields acc = .error v := by
  induction fields generalizing acc with
  | nil => exact absurd (fun f hf => by simp at hf) h
  | cons f rest ih =>
    by_cases hf : f.id = 0 ∨ f.id = 1 ∨ f.id = 2
    · have hrest : ¬ recognised rest := by
        intro hr
        apply h
        intro g hg
        rcases List.mem_cons.mp hg with hg | hg
        · rw [hg]; exact hf
        · exact hr g hg
      unfold readFields
      split_ifs
      all_goals first | exact ih hrest _ | (exfalso; tauto)
    · have h0 : ¬ f.id = 0 := fun e => hf (Or.inl e)
      have h1 : ¬ f.id = 1 := fun e => hf (Or.inr (Or.inl e))
      have h2 : ¬ f.id = 2 := fun e => hf (Or.inr (Or.inr e))
      unfold readFields
      rw [if_neg h0, if_neg h1, if_neg h2]
      exact ⟨_, rfl⟩

/-- C15 (as amended): in a status-200 exchange `readResponse` returns -1 for
an unrecognised header-field identifier and the negative result n of
`HTTPCli_readResponseBody` for a body-read transport failure; neither value
is the success value 0, and the two conditions are told apart by the value
returned exactly when n is not -1. Here x is an exchange with an
unrecognised identifier and y one whose body read fails. -/
theorem C15_error_return_values (x y : Exchange) (hx : x.status = 200)
    (hy : y.status = 200) :
    (¬ recognised x.fields →
      (readResponse x).steps = [Step.wrongFilterId] ∧ (readResponse x).retVal = -1 ∧
      (readResponse x).retVal ≠ 0) ∧
    (recognised y.fields → declaredLength y ≤ sizeof_g_buff → y.bodyRet < 0 →
      Step.readFailure ∈ (readResponse y).steps) ∧
    (Step.readFailure ∈ (readResponse y).steps →
      (readResponse y).retVal = y.bodyRet ∧ (readResponse y).retVal < 0 ∧
      (readResponse y).retVal ≠ 0) ∧
    (¬ recognised x.fields → Step.readFailure ∈ (readResponse y).steps →
      ((readResponse x).retVal ≠ (readResponse y).retVal ↔ y.bodyRet ≠ -1)) := by
  have hwrong : ¬ recognised x.fields →
      (readResponse x).steps = [Step.wrongFilterId] ∧ (readResponse x).retVal = -1 := by
    intro hnr
    obtain ⟨v, hv⟩ := readFields_unrecognised x.strtoul x.fields hnr
      { len := 0, json := 0, moreFlags := true }
    have h1 : (200 : Int) > 0 := by decide
    unfold readResponse
    simp only [hx]
    rw [if_pos h1, if_pos trivial, hv]
    simp [readResponse_end]
  have hread := (readResponse_200_paths y hy).2.2.2
  refine ⟨fun hnr => ⟨(hwrong hnr).1, (hwrong hnr).2, by rw [(hwrong hnr).2]; decide⟩,
    ?_, fun h => ⟨(hread h).1, by rw [(hread h).1]; exact (hread h).2, ?_⟩, ?_⟩
  · intro hrec hL hneg
    obtain ⟨v, hlen, -, hrun⟩ := readResponse_inline y hy hrec hL
    have hv : v.len ≤ sizeof_g_buff := by omega
    rw [hrun]
    unfold readResponse_body
    simp only [readResponse_end_inline _ _ _ _ hv, if_pos hneg]
    simp
  · have := hread h
    omega
  · intro hnr hrf
    rw [(hwrong hnr).2, (hread hrf).1]
    constructor
    · intro h1 h2
      exact h1 h2.symm
    · intro h1 h2
      exact h1 h2.symm

/-- C15 witness: the exchange with a wrong field identifier and the exchange
whose body read returns -1. -/
theorem C15_error_return_values_witness :
    (wrongIdExchange.status = 200 ∧ failedReadExchange.status = 200 ∧
      ¬ recognised wrongIdExchange.fields) ∧
    (readResponse wrongIdExchange).retVal = -1 :=
  ⟨⟨rfl, rfl, by unfold recognised; decide⟩,
   ((C15_error_return_values wrongIdExchange failedReadExchange rfl rfl).1
     (by unfold recognised; decide)).2.1⟩

/-- C15 as stated fails: an unrecognised field identifier (`wrongIdExchange`)
and a body-read transport failure (`failedReadExchange`, whose read returns
-1) are two different conditions, and `readResponse` returns -1 for both. -/
theorem C15_error_return_values_counterexample :
    wrongIdExchange.status = 200 ∧ failedReadExchange.status = 200 ∧
    ¬ recognised wrongIdExchange.fields ∧
    recognised failedReadExchange.fields ∧ failedReadExchange.bodyRet < 0 ∧
    (readResponse wrongIdExchange).steps = [Step.wrongFilterId] ∧
    (readResponse failedReadExchange).steps =
      [Step.readBody DataBuffer.g_buff 5, Step.readFailure] ∧
    (readResponse wrongIdExchange).retVal = -1 ∧
    (readResponse failedReadExchange).retVal = -1 ∧
    ¬ ((readResponse wrongIdExchange).retVal ≠
        (readResponse failedReadExchange).retVal) := by
  refine ⟨rfl, rfl, by unfold recognised; decide, by unfold recognised; decide, by decide,
    by decide, by decide, by decide, by decide, by decide⟩

/-! ### `ParseJSONData` -/

/-- C16 fails on the code: for the body {"a":1,"b":[2,3]} the counting pass
reports 7 tokens, and `ParseJSONData` passes that count, 7, as the
maximum-token argument of the filling pass, which stores into the 3
elements of `tokenList`; in general the argument is the count itself,
whenever the count is positive. -/
theorem C16_fill_budget_is_the_count :
    Jsmn.countTokens (cstr Jsmn.exampleBody) = .ok 7 ∧
    (∀ code fill, (ParseJSONData_ptr code Jsmn.exampleBody fill).fillBudget = some 7) ∧
    ¬ ((7 : Int) ≤ (tokenList_size : Int)) ∧
    (∀ count fill, 0 < count → (ParseJSONData count fill).fillBudget = some count) := by
  have h7 : Jsmn.countTokens (cstr Jsmn.exampleBody) = .ok 7 := by rfl
  refine ⟨h7, fun code fill => ?_, by decide, fun count fill hc => ?_⟩
  · simp only [ParseJSONData_ptr, h7, ParseJSONData]
    split_ifs <;> simp_all
  · have hn : ¬ count ≤ 0 := by omega
    simp only [ParseJSONData, if_neg hn]
    split_ifs <;> rfl

/-- C17 (as amended): for every non-empty body for which the counting pass
reports 0 tokens, `ParseJSONData` returns -1 (the guard `noOfToken <= 0` of
line 651) and does not make the filling pass. -/
theorem C17_zero_tokens_rejected (code : Jsmn.TokError → Int) (ptr : List Nat) (fill : Int)
    (_hne : cstr ptr ≠ []) (h0 : Jsmn.countTokens (cstr ptr) = .ok 0) :
    (ParseJSONData_ptr code ptr fill).retVal = -1 ∧
    (ParseJSONData_ptr code ptr fill).fillBudget = none := by
  simp [ParseJSONData_ptr, h0, ParseJSONData]

/-- C17 witness: a body of two spaces. -/
theorem C17_zero_tokens_rejected_witness :
    (cstr [32, 32] ≠ [] ∧ Jsmn.countTokens (cstr [32, 32]) = .ok 0) ∧
      (ParseJSONData_ptr (fun _ => -1) [32, 32] 0).retVal = -1 :=
  ⟨⟨by decide, by rfl⟩,
   (C17_zero_tokens_rejected (fun _ => -1) [32, 32] 0 (by decide) (by rfl)).1⟩

/-- C17 as stated fails: the body of two spaces is not empty, the counting
pass reports 0 tokens for it, and `ParseJSONData` returns -1, a negative
value, whatever the tokenizer would return afterwards. -/
theorem C17_zero_tokens_counterexample :
    cstr [32, 32] ≠ [] ∧ Jsmn.countTokens (cstr [32, 32]) = .ok 0 ∧
    (∀ code fill, (ParseJSONData_ptr code [32, 32] fill).retVal = -1) ∧
    ¬ (0 ≤ (ParseJSONData_ptr (fun _ => -1) [32, 32] 0).retVal) := by
  have h0 : Jsmn.countTokens (cstr [32, 32]) = .ok 0 := by rfl
  refine ⟨by decide, h0, fun code fill => ?_, ?_⟩
  · simp [ParseJSONData_ptr, h0, ParseJSONData]
  · simp [ParseJSONData_ptr, h0, ParseJSONData]

end Lab5

namespace Lab6

/-! ### The command-frame server: frame layout, receives, closes -/

/-- The two outputs after the Interpret step, as functions of bytes 5 and 12. -/
lemma interpret_outputs (b : List Nat) (portF : Nat) :
    (PF1 (interpret b portF) = true ↔ byteAt b 5 = 0x31) ∧
    (PF2 (interpret b portF) = true ↔ byteAt b 12 = 0x31) := by
  have e1 : GPIO_PIN_1 = 2 := rfl
  have e2 : GPIO_PIN_2 = 4 := rfl
  have c1 : char_1 = 0x31 := rfl
  have t21 : Nat.testBit 2 1 = true := by decide
  have t22 : Nat.testBit 2 2 = false := by decide
  have t41 : Nat.testBit 4 1 = false := by decide
  have t42 : Nat.testBit 4 2 = true := by decide
  have t01 : Nat.testBit 0 1 = false := by decide
  have t02 : Nat.testBit 0 2 = false := by decide
  unfold PF1 PF2 interpret
  rw [e1, e2, c1]
  constructor
  · by_cases h5 : byteAt b 5 = 0x31 <;> by_cases h12 : byteAt b 12 = 0x31 <;>
      simp [h5, h12, testBit_GPIOPinWrite, t21, t41, t01]
  · by_cases h5 : byteAt b 5 = 0x31 <;> by_cases h12 : byteAt b 12 = 0x31 <;>
      simp [h5, h12, testBit_GPIOPinWrite, t22, t42, t02]

/-- C18 fails on the code: when the 15-byte text frame "LED1:a & LED2:b" of
the specification is at the start of the buffer, byte 5 is a but byte 12 is
the character 2 of "LED2" (the LED2 value b is byte 14, which is not read),
so output 2 is driven off whatever b is; for a = 0, b = 1 the outputs are
(off, off), not (off, on). For the frame "LED1 :a& LED2 :b" of the comment
of lines 530-533, byte 5 is the colon and byte 12 the character 2, so both
outputs are driven off whatever a and b are. -/
theorem C18_text_frame_misread (a b : Nat) (rest : List Nat) (portF : Nat) :
    (textFrame a b).length = 15 ∧
    byteAt (textFrame a b ++ rest) 5 = a ∧
    byteAt (textFrame a b ++ rest) 12 = ('2').toNat ∧
    byteAt (textFrame a b ++ rest) 14 = b ∧
    (PF1 (interpret (copyReceiveBuffer (textFrame a b ++ rest)) portF) = true ↔
      a = ('1').toNat) ∧
    PF2 (interpret (copyReceiveBuffer (textFrame a b ++ rest)) portF) = false ∧
    byteAt (commentFrame a b ++ rest) 5 = (':').toNat ∧
    byteAt (commentFrame a b ++ rest) 12 = ('2').toNat ∧
    PF1 (interpret (copyReceiveBuffer (commentFrame a b ++ rest)) portF) = false ∧
    PF2 (interpret (copyReceiveBuffer (commentFrame a b ++ rest)) portF) = false ∧
    textFrame ('0').toNat ('1').toNat =
      ['L', 'E', 'D', '1', ':', '0', ' ', '&', ' ', 'L', 'E', 'D', '2', ':', '1'].map
        Char.toNat ∧
    (PF1 (interpret (copyReceiveBuffer (textFrame ('0').toNat ('1').toNat)) 0),
      PF2 (interpret (copyReceiveBuffer (textFrame ('0').toNat ('1').toNat)) 0)) =
        (false, false) := by
  have t5 : byteAt (textFrame a b ++ rest) 5 = a := by simp [byteAt, textFrame]
  have t12 : byteAt (textFrame a b ++ rest) 12 = ('2').toNat := by
    simp [byteAt, textFrame]
  have t14 : byteAt (textFrame a b ++ rest) 14 = b := by simp [byteAt, textFrame]
  have c5 : byteAt (commentFrame a b ++ rest) 5 = (':').toNat := by
    simp [byteAt, commentFrame]
  have c12 : byteAt (commentFrame a b ++ rest) 12 = ('2').toNat := by
    simp [byteAt, commentFrame]
  have ht := interpret_outputs (copyReceiveBuffer (textFrame a b ++ rest)) portF
  have hc := interpret_outputs (copyReceiveBuffer (commentFrame a b ++ rest)) portF
  rw [byteAt_copyReceiveBuffer _ 5 (by decide), byteAt_copyReceiveBuffer _ 12 (by decide)]
    at ht hc
  rw [t5, t12] at ht
  rw [c5, c12] at hc
  have off : ∀ v : Bool, (v = true → False) → v = false := by
    intro v hv
    cases v
    · rfl
    · exact absurd rfl hv
  refine ⟨by simp [textFrame], t5, t12, t14, ht.1, ?_, c5, c12, ?_, ?_, by decide,
    by decide⟩
  · exact off _ (fun hp => absurd (ht.2.mp hp) (by decide))
  · exact off _ (fun hp => absurd (hc.1.mp hp) (by decide))
  · exact off _ (fun hp => absurd (hc.2.mp hp) (by decide))

/-- The outputs after a round are those of the Interpret step on the buffer
as the receive has left it. -/
lemma replyRound_portF (t : Transport) (N : Int) (rs : Int) (s : Server) :
    (replyRound t N rs s).2.portF =
      interpret (copyReceiveBuffer
        (storeAt s.BsdBuf ((BUF_SIZE : Int) - rs).toNat ((t.recv s.recvs).2.take rs.toNat)))
        s.portF := by
  simp [replyRound, sl_Close]

/-- The array `ReceiveBuffer` after a round holds the first 20 bytes of the
buffer as the receive has left it. -/
lemma replyRound_ReceiveBuffer (t : Transport) (N : Int) (rs : Int) (s : Server) :
    (replyRound t N rs s).2.ReceiveBuffer =
      copyReceiveBuffer
        (storeAt s.BsdBuf ((BUF_SIZE : Int) - rs).toNat ((t.recv s.recvs).2.take rs.toNat)) := by
  simp [replyRound, sl_Close]

/-- A run in which socket, bind, listen and accept succeed leaves the outputs
as the Interpret step of its round has set them, and `ReceiveBuffer` as the
copy loop of that round has filled it. -/
lemma BsdTcpServer_serve_portF (t : Transport) (s : Server) (n : Nat)
    (h1 : 0 ≤ t.socket) (h2 : 0 ≤ t.bind) (h3 : 0 ≤ t.listen) (h4 : 0 ≤ t.accept)
    (r : Run) (hr : BsdTcpServer_serve t s (n + 2) = some r) :
    r.final.portF =
      interpret (copyReceiveBuffer
        (storeAt s.BsdBuf 0 ((t.recv s.recvs).2.take BUF_SIZE))) s.portF ∧
    r.final.ReceiveBuffer =
      copyReceiveBuffer (storeAt s.BsdBuf 0 ((t.recv s.recvs).2.take BUF_SIZE)) := by
  have e1 : ¬ t.socket < 0 := by omega
  have e2 : ¬ t.bind < 0 := by omega
  have e3 : ¬ t.listen < 0 := by omega
  have e4 : ¬ t.accept < 0 := by omega
  simp only [BsdTcpServer_serve, packetLoop_add_two, if_neg e1, if_neg e2, if_neg e3,
    if_neg e4] at hr
  generalize hq : replyRound t t.accept (BUF_SIZE : Int) _ = q at hr
  have hq2 : q.2.portF = interpret (copyReceiveBuffer
      (storeAt s.BsdBuf 0 ((t.recv s.recvs).2.take BUF_SIZE))) s.portF := by
    rw [← hq, replyRound_portF]
    simp
  have hq3 : q.2.ReceiveBuffer =
      copyReceiveBuffer (storeAt s.BsdBuf 0 ((t.recv s.recvs).2.take BUF_SIZE)) := by
    rw [← hq, replyRound_ReceiveBuffer]
    simp
  by_cases h5 : q.1 ≤ 0
  · rw [if_pos h5] at hr
    simp only [Option.some.injEq] at hr
    subst hr
    simp [sl_Close, hq2, hq3]
  · rw [if_neg h5] at hr
    dsimp only at hr
    split_ifs at hr <;> simp only [Option.some.injEq] at hr <;> subst hr <;>
      simp [sl_Close, hq2, hq3]

/-- C20 fails on the code: with a peer for which every call succeeds (listening
socket 0, accepted socket 1) `BsdTcpServer` returns SUCCESS having called
`sl_Close` on the accepted socket twice: at line 557 inside the loop and at
line 577 after it. When the send fails the two calls are those of lines 557
and 561. -/
theorem C20_accepted_socket_closed_twice :
    0 ≤ (steadyPeer 0).accept ∧
    (BsdTcpServer (steadyPeer 0) 0 2).map
        (fun r => (r.value, r.final.calls.count (Call.close 1))) = some (SUCCESS, 2) ∧
    (BsdTcpServer { steadyPeer 0 with send := fun _ => -1 } 0 2).map
        (fun r => (r.value, r.final.calls.count (Call.close 1))) =
      some (TCP_RECV_ERROR, 2) := by
  refine ⟨by decide, by decide, by decide⟩

end Lab6

namespace Lab6

/-! ### The command-frame server: exit paths -/

/-- C21 fails on the code: when every call succeeds except the `sl_Close` of
line 577 (the second close of the accepted socket), `ASSERT_ON_ERROR(Status)`
of line 578 returns that negative status before line 580 is reached, and
`sl_Close` has not been called on the listening socket at all. The bind,
listen and accept failure paths do close it once, return the negative
status and make no receive or send call. -/
theorem C21_listening_socket_not_closed :
    0 ≤ closeFailPeer.socket ∧
    (BsdTcpServer closeFailPeer 0 2).map
        (fun r => (r.value, r.final.calls.count (Call.close 0))) = some (-1, 0) ∧
    (BsdTcpServer { closeFailPeer with bind := -5 } 0 2).map
        (fun r => (r.value, r.final.calls)) =
      some (-5, [Call.socket, Call.bind 0, Call.close 0]) ∧
    (BsdTcpServer { closeFailPeer with listen := -6 } 0 2).map
        (fun r => (r.value, r.final.calls)) =
      some (-6, [Call.socket, Call.bind 0, Call.listen 0, Call.close 0]) ∧
    (BsdTcpServer { closeFailPeer with accept := -7 } 0 2).map
        (fun r => (r.value, r.final.calls)) =
      some (-7, [Call.socket, Call.bind 0, Call.listen 0, Call.accept 0, Call.close 0]) := by
  refine ⟨by decide, by decide, by decide, by decide, by decide⟩

/-- C22 fails on the code: when `sl_Recv` returns -1 and the later send and
closes succeed, `BsdTcpServer` returns SUCCESS (0), not a negative value:
the status of `sl_Recv` is overwritten by that of `sl_Send` (line 556)
before the test of line 559 reads it. -/
theorem C22_receive_failure_not_reported :
    (recvFailPeer.recv 0).1 = -1 ∧
    (BsdTcpServer recvFailPeer 0 2).map (fun r => r.value) = some SUCCESS ∧
    SUCCESS = 0 ∧
    (BsdTcpServer recvFailPeer 0 2).map (fun r => decide (r.value < 0)) = some false := by
  refine ⟨rfl, by decide, rfl, by decide⟩

/-- C26 fails on the code (lab6): `ADC0IntHandler` reads
`ui32ADC0DigitalValue[1]`, and index 1 is outside the array of 1 element that
`ADCSequenceDataGet` has filled, whatever the conversion result is; the
converted value is element 0. -/
theorem C26_sample_index_out_of_array (sample : Nat) :
    ADC0IntHandler sample = none ∧
    ¬ (ADC0IntHandler_index < ui32ADC0DigitalValue_size) ∧
    (ui32ADC0DigitalValue sample).get? 0 = some sample ∧
    Lab5.ADC0InitAndTrigger sample = none ∧
    ¬ (Lab5.ADC0InitAndTrigger_index < Lab5.ui32ADC0DigitalValue_size) := by
  refine ⟨rfl, by decide, rfl, rfl, by decide⟩

end Lab6

namespace Lab5

/-- C27 fails on the code: the initialiser of `GET_REQUEST_URI` has 29
characters, so the three digits written at indices 29..31 fill the 32-byte
array to its last byte and no NUL byte is left in it; shown for the samples
0 and 4095. -/
theorem C27_request_path_not_terminated :
    GET_REQUEST_URI.length = 32 ∧
    (main_digitExtraction GET_REQUEST_URI 0).length = 32 ∧
    (0 : Nat) ∉ main_digitExtraction GET_REQUEST_URI 0 ∧
    (0 : Nat) ∉ main_digitExtraction GET_REQUEST_URI 4095 ∧
    cstr (main_digitExtraction GET_REQUEST_URI 0) = main_digitExtraction GET_REQUEST_URI 0 := by
  refine ⟨by decide, by decide, by decide, by decide, by decide⟩

end Lab5

namespace Lab2

/-- C28 fails on the code: the last test of `conversionFunction` is
`adcValue > 912`, not `adcValue > 921`, so for adcValue = 915 two of the
eleven tests hold (the ones for 9 and for 10) and the result is 10, not 9,
whatever the uninitialised local held; the same for all of 913..921. -/
theorem C28_ranges_overlap :
    (rangeTests 915).count true = 2 ∧
    (∀ garbage, conversionFunction garbage 915 = 10) ∧
    (818 < (915 : Int) ∧ (915 : Int) ≤ 921) ∧
    (∀ garbage adcValue, 912 < adcValue → adcValue ≤ 921 →
      conversionFunction garbage adcValue = 10) := by
  refine ⟨by decide, fun g => by simp [conversionFunction], by decide, ?_⟩
  intro g a h1 h2
  have h : a > 912 ∧ a ≤ 1023 := ⟨h1, by omega⟩
  simp only [conversionFunction, if_pos h]

end Lab2

namespace Lab3

/-! ### The sender of lab3 -/

/-- A 12-bit value lies in exactly one of the eleven documented ranges. -/
lemma range_cases (x : Nat) (hx : x ≤ 4095) :
    x = 0 ∨ (0 < x ∧ x ≤ 410) ∨ (410 < x ∧ x ≤ 819) ∨ (819 < x ∧ x ≤ 1229) ∨
      (1229 < x ∧ x ≤ 1638) ∨ (1638 < x ∧ x ≤ 2048) ∨ (2048 < x ∧ x ≤ 2457) ∨
      (2457 < x ∧ x ≤ 2867) ∨ (2867 < x ∧ x ≤ 3276) ∨ (3276 < x ∧ x ≤ 3686) ∨
      (3686 < x ∧ x ≤ 4095) := by omega

/-- For a 12-bit value the chain of eleven tests picks the documented
character, whatever the uninitialised local held. -/
lemma encode_eq_documentedCharacter (garbage x : Nat) (hx : x ≤ 4095) :
    encode garbage x = documentedCharacter x := by
  rcases range_cases x hx with h | h | h | h | h | h | h | h | h | h | h <;>
    simp (disch := omega) only [encode, documentedCharacter, if_pos, if_neg]

/-- The documented table is non-decreasing. -/
lemma documentedCharacter_mono (x y : Nat) (hxy : x ≤ y) (hy : y ≤ 4095) :
    documentedCharacter x ≤ documentedCharacter y := by
  rcases range_cases x (by omega) with h | h | h | h | h | h | h | h | h | h | h <;>
    rcases range_cases y hy with h2 | h2 | h2 | h2 | h2 | h2 | h2 | h2 | h2 | h2 | h2 <;>
    first
      | omega
      | (simp (disch := omega) only [documentedCharacter, if_pos, if_neg]; decide)

/-- C24: for every ADC value x in [0,4095] exactly one of the eleven range
tests of `ConversionFunction` holds, and the character chosen is the one of
the documented table: a for x = 0, b for 0 < x <= 410, c up to 819, d up to
1229, e up to 1638, f up to 2048, g up to 2457, h up to 2867, i up to 3276,
j up to 3686, k up to 4095; the chosen character is non-decreasing in x. -/
theorem C24_sender_encoding_table (garbage x : Nat) (hx : x ≤ 4095) :
    (rangeTests x).count true = 1 ∧
    encode garbage x = documentedCharacter x ∧
    (x = 0 → encode garbage x = ('a').toNat) ∧
    (0 < x ∧ x ≤ 410 → encode garbage x = ('b').toNat) ∧
    (410 < x ∧ x ≤ 819 → encode garbage x = ('c').toNat) ∧
    (819 < x ∧ x ≤ 1229 → encode garbage x = ('d').toNat) ∧
    (1229 < x ∧ x ≤ 1638 → encode garbage x = ('e').toNat) ∧
    (1638 < x ∧ x ≤ 2048 → encode garbage x = ('f').toNat) ∧
    (2048 < x ∧ x ≤ 2457 → encode garbage x = ('g').toNat) ∧
    (2457 < x ∧ x ≤ 2867 → encode garbage x = ('h').toNat) ∧
    (2867 < x ∧ x ≤ 3276 → encode garbage x = ('i').toNat) ∧
    (3276 < x ∧ x ≤ 3686 → encode garbage x = ('j').toNat) ∧
    (3686 < x ∧ x ≤ 4095 → encode garbage x = ('k').toNat) ∧
    (∀ y, x ≤ y → y ≤ 4095 → encode garbage x ≤ encode garbage y) := by
  have hcount : (rangeTests x).count true = 1 := by
    rcases range_cases x hx with h | h | h | h | h | h | h | h | h | h | h <;>
      simp (disch := omega) only [rangeTests, decide_eq_true, decide_eq_false] <;> rfl
  have hrow : ∀ c : Nat, documentedCharacter x = c → encode garbage x = c := fun c hc => by
    rw [encode_eq_documentedCharacter garbage x hx, hc]
  refine ⟨hcount, encode_eq_documentedCharacter garbage x hx,
    ?_, ?_, ?_, ?_, ?_, ?_, ?_, ?_, ?_, ?_, ?_, ?_⟩
  · intro h; apply hrow; simp (disch := omega) only [documentedCharacter, if_pos, if_neg]
  · intro h; apply hrow; simp (disch := omega) only [documentedCharacter, if_pos, if_neg]
  · intro h; apply hrow; simp (disch := omega) only [documentedCharacter, if_pos, if_neg]
  · intro h; apply hrow; simp (disch := omega) only [documentedCharacter, if_pos, if_neg]
  · intro h; apply hrow; simp (disch := omega) only [documentedCharacter, if_pos, if_neg]
  · intro h; apply hrow; simp (disch := omega) only [documentedCharacter, if_pos, if_neg]
  · intro h; apply hrow; simp (disch := omega) only [documentedCharacter, if_pos, if_neg]
  · intro h; apply hrow; simp (disch := omega) only [documentedCharacter, if_pos, if_neg]
  · intro h; apply hrow; simp (disch := omega) only [documentedCharacter, if_pos, if_neg]
  · intro h; apply hrow; simp (disch := omega) only [documentedCharacter, if_pos, if_neg]
  · intro h; apply hrow; simp (disch := omega) only [documentedCharacter, if_pos, if_neg]
  · intro y hxy hy
    rw [encode_eq_documentedCharacter garbage x hx, encode_eq_documentedCharacter garbage y hy]
    exact documentedCharacter_mono x y hxy hy

/-- C24 witness: the value 2048 is encoded as f. -/
theorem C24_sender_encoding_table_witness :
    2048 ≤ 4095 ∧ (rangeTests 2048).count true = 1 ∧ encode 0 2048 = ('f').toNat :=
  ⟨by decide, (C24_sender_encoding_table 0 2048 (by decide)).1,
   (C24_sender_encoding_table 0 2048 (by decide)).2.2.2.2.2.2.2.1 (by decide)⟩

/-- A character encoded from a 12-bit value is not the initial z. -/
lemma encode_ne_z (garbage x : Nat) (hx : x ≤ 4095) : encode garbage x ≠ ('z').toNat := by
  rw [encode_eq_documentedCharacter garbage x hx]
  rcases range_cases x hx with h | h | h | h | h | h | h | h | h | h | h <;>
    simp (disch := omega) only [documentedCharacter, if_pos, if_neg] <;> decide

/-- One call keeps the invariant. -/
lemma sendInvariant_ConversionFunction (garbage adc : Nat) (s : Sender)
    (h : sendInvariant s) : sendInvariant (ConversionFunction garbage adc s) := by
  unfold ConversionFunction
  by_cases hne : s.ui8ValueToReceiverPrevious ≠ encode garbage adc
  · simp only [if_pos hne]
    refine ⟨?_, ?_⟩
    · rw [List.chain'_append]
      refine ⟨h.1, List.chain'_singleton _, ?_⟩
      intro a ha b hb
      simp only [List.head?_cons, Option.mem_def, Option.some.injEq] at hb
      subst hb
      have := h.2 a ha
      rw [this]
      exact hne
    · intro c hc
      rw [List.getLast?_concat] at hc
      simp only [Option.some.injEq] at hc
      exact hc.symm
  · simp only [if_neg hne]
    exact h

/-- A sequence of calls keeps the invariant. -/
lemma sendInvariant_calls (garbage : Nat) (xs : List Nat) (s : Sender)
    (h : sendInvariant s) : sendInvariant (calls garbage xs s) := by
  induction xs generalizing s with
  | nil => exact h
  | cons x rest ih => exact ih _ (sendInvariant_ConversionFunction garbage x s h)

/-- Later calls only add to the characters sent. -/
lemma sent_calls_prefix (garbage : Nat) (xs : List Nat) (s : Sender) :
    ∃ more, (calls garbage xs s).sent = s.sent ++ more := by
  induction xs generalizing s with
  | nil => exact ⟨[], by simp [calls]⟩
  | cons x rest ih =>
    obtain ⟨more, hmore⟩ := ih (ConversionFunction garbage x s)
    unfold calls
    rw [hmore]
    by_cases hne : s.ui8ValueToReceiverPrevious ≠ encode garbage x
    · simp only [ConversionFunction, if_pos hne]
      exact ⟨[encode garbage x] ++ more, by simp⟩
    · simp only [ConversionFunction, if_neg hne]
      exact ⟨more, rfl⟩

/-- C25: in every sequence of `ConversionFunction` calls with ADC values in
[0,4095], started with `ui8ValueToReceiverPrevious` = z: a call passes its
character to `SendToReceiver` if and only if the character differs from
`ui8ValueToReceiverPrevious`; after every call `ui8ValueToReceiverPrevious`
is the character just encoded; the first call always transmits; and no two
characters transmitted one after the other are equal. -/
theorem C25_send_only_on_change (garbage : Nat) (xs : List Nat)
    (hxs : ∀ x ∈ xs, x ≤ 4095) :
    (∀ s adc,
      (ConversionFunction garbage adc s).ui8ValueToReceiverPrevious = encode garbage adc ∧
      (encode garbage adc ≠ s.ui8ValueToReceiverPrevious →
        (ConversionFunction garbage adc s).sent = s.sent ++ [encode garbage adc]) ∧
      (encode garbage adc = s.ui8ValueToReceiverPrevious →
        (ConversionFunction garbage adc s).sent = s.sent)) ∧
    (∀ x rest, xs = x :: rest →
      (ConversionFunction garbage x initialSender).sent = [encode garbage x] ∧
      (calls garbage xs initialSender).sent.head? = some (encode garbage x)) ∧
    List.Chain' (fun a b => a ≠ b) (calls garbage xs initialSender).sent := by
  refine ⟨fun s adc => ?_, fun x rest hx => ?_, ?_⟩
  · by_cases hne : s.ui8ValueToReceiverPrevious ≠ encode garbage adc
    · have hrun : ConversionFunction garbage adc s =
          { ui8ValueToReceiverPrevious := encode garbage adc
            sent := s.sent ++ [encode garbage adc] } := by
        simp only [ConversionFunction, if_pos hne]
      rw [hrun]
      exact ⟨rfl, fun _ => rfl, fun h => absurd h.symm hne⟩
    · have hrun : ConversionFunction garbage adc s = s := by
        simp only [ConversionFunction, if_neg hne]
      have heq : s.ui8ValueToReceiverPrevious = encode garbage adc := not_not.mp hne
      rw [hrun]
      exact ⟨heq, fun h => absurd heq.symm h, fun _ => rfl⟩
  · have hx4 : x ≤ 4095 := hxs x (by rw [hx]; simp)
    have hz : initialSender.ui8ValueToReceiverPrevious ≠ encode garbage x :=
      fun h => encode_ne_z garbage x hx4 h.symm
    have hfirst : (ConversionFunction garbage x initialSender).sent = [encode garbage x] := by
      simp only [ConversionFunction, if_pos hz]
      rfl
    refine ⟨hfirst, ?_⟩
    obtain ⟨more, hmore⟩ := sent_calls_prefix garbage rest (ConversionFunction garbage x initialSender)
    rw [hx]
    unfold calls
    rw [hmore, hfirst]
    rfl
  · exact (sendInvariant_calls garbage xs initialSender
      ⟨List.chain'_nil, fun c hc => by simp [initialSender] at hc⟩).1

/-- C25 witness: the values 0, 100, 100, 4095 transmit a, b, k. -/
theorem C25_send_only_on_change_witness :
    (∀ x ∈ [0, 100, 100, 4095], x ≤ 4095) ∧
    (calls 0 [0, 100, 100, 4095] initialSender).sent =
      [('a').toNat, ('b').toNat, ('k').toNat] ∧
    List.Chain' (fun a b => a ≠ b) (calls 0 [0, 100, 100, 4095] initialSender).sent :=
  ⟨by decide, by decide,
   (C25_send_only_on_change 0 [0, 100, 100, 4095] (by decide)).2.2⟩

end Lab3

namespace Lab6

/-! ### The command-frame server: short receives -/

/-- A byte at or past the end of the stored data keeps its value. -/
lemma byteAt_storeAt_zero (buf data : List Nat) (i : Nat) (hi : data.length ≤ i)
    (hlen : data.length ≤ buf.length) :
    byteAt (storeAt buf 0 data) i = byteAt buf i := by
  have htake : List.take (buf.length - 0) data = data :=
    List.take_of_length_le (by omega)
  simp only [byteAt, storeAt, List.take_zero, List.nil_append, htake, Nat.zero_add,
    List.getD_eq_getElem?_getD]
  rw [List.getElem?_append_right hi, List.getElem?_drop]
  congr 2
  omega

/-- A byte of the buffer after the fill loop of lines 475-478. -/
lemma byteAt_initialServer (portF i : Nat) :
    byteAt (initialServer portF).BsdBuf i = if i < BUF_SIZE then i % 10 else 0 := by
  simp only [byteAt, initialServer, List.getD_eq_getElem?_getD, List.getElem?_map]
  by_cases hi : i < BUF_SIZE
  · rw [List.getElem?_range hi, if_pos hi]
    simp only [Option.map_some', Option.getD_some]
    omega
  · rw [if_neg hi]
    have : (List.range BUF_SIZE)[i]? = none := by
      rw [List.getElem?_eq_none_iff]
      simp only [List.length_range]
      omega
    rw [this]
    rfl

/-- C29: in `BsdTcpServer` the buffer of BUF_SIZE bytes is filled with
BsdBuf[i] = i mod 10 before the receive, and none of these bytes is the
character 1 (0x31); so in every run in which socket, bind, listen and accept
succeed, whatever status `sl_Recv` returns: every byte of `ReceiveBuffer` at
an offset the receive has not stored to still holds the fill value i mod 10;
when the receive stores at most 12 bytes, output 2 (PF2) is driven off, and
when it stores at most 5 bytes (no byte at all included) both outputs are
driven off. -/
theorem C29_short_receive_outputs_off (t : Transport) (portF fuel : Nat) (r : Run)
    (hs : 0 ≤ t.socket) (hb : 0 ≤ t.bind) (hl : 0 ≤ t.listen) (ha : 0 ≤ t.accept)
    (hrun : BsdTcpServer t portF fuel = some r) :
    (initialServer portF).BsdBuf.length = BUF_SIZE ∧
    (∀ i, i < BUF_SIZE → byteAt (initialServer portF).BsdBuf i = i % 10) ∧
    (∀ i, byteAt (initialServer portF).BsdBuf i ≠ 0x31) ∧
    (∀ i, (t.recv 0).2.length ≤ i → i < 20 → byteAt r.final.ReceiveBuffer i = i % 10) ∧
    ((t.recv 0).2.length ≤ 12 → PF2 r.final.portF = false) ∧
    ((t.recv 0).2.length ≤ 5 → PF1 r.final.portF = false ∧ PF2 r.final.portF = false) := by
  have hB : BUF_SIZE = 1400 := rfl
  have hfill : ∀ i, i < BUF_SIZE → byteAt (initialServer portF).BsdBuf i = i % 10 := by
    intro i hi
    rw [byteAt_initialServer, if_pos hi]
  have hpre : ∀ i, byteAt (initialServer portF).BsdBuf i ≠ 0x31 := by
    intro i
    rw [byteAt_initialServer]
    split_ifs <;> omega
  have hfuel : ¬ fuel < 2 := by
    intro hf
    have := (BsdTcpServer_serve_lt_two t _ fuel hf r hrun).1
    omega
  obtain ⟨n, rfl⟩ : ∃ n, fuel = n + 2 := ⟨fuel - 2, by omega⟩
  obtain ⟨hport, hrb⟩ :=
    BsdTcpServer_serve_portF t (initialServer portF) n hs hb hl ha r hrun
  have hrecvs : (initialServer portF).recvs = 0 := rfl
  have hpF : (initialServer portF).portF = portF := rfl
  have hblen : (initialServer portF).BsdBuf.length = BUF_SIZE := by
    simp [initialServer]
  rw [hrecvs, hpF] at hport
  rw [hrecvs] at hrb
  have hkeep : ∀ i, (t.recv 0).2.length ≤ i → i < 20 →
      byteAt (storeAt (initialServer portF).BsdBuf 0 ((t.recv 0).2.take BUF_SIZE)) i =
        byteAt (initialServer portF).BsdBuf i := by
    intro i hlen hi
    have hl2 : ((t.recv 0).2.take BUF_SIZE).length ≤ i := by
      rw [List.length_take]; omega
    exact byteAt_storeAt_zero (initialServer portF).BsdBuf
      ((t.recv 0).2.take BUF_SIZE) i hl2 (by rw [hblen]; omega)
  have hout := interpret_outputs (copyReceiveBuffer
    (storeAt (initialServer portF).BsdBuf 0 ((t.recv 0).2.take BUF_SIZE))) portF
  rw [byteAt_copyReceiveBuffer _ 5 (by decide), byteAt_copyReceiveBuffer _ 12 (by decide)]
    at hout
  have hoff2 : (t.recv 0).2.length ≤ 12 → PF2 r.final.portF = false := by
    intro hlen
    rw [hkeep 12 hlen (by decide)] at hout
    rw [hport]
    cases hp : PF2 (interpret (copyReceiveBuffer
        (storeAt (initialServer portF).BsdBuf 0 ((t.recv 0).2.take BUF_SIZE))) portF)
    · rfl
    · exact absurd (hout.2.mp hp) (hpre 12)
  refine ⟨hblen, hfill, hpre, ?_, hoff2, fun hlen => ⟨?_, hoff2 (by omega)⟩⟩
  · intro i hlen hi
    rw [hrb, byteAt_copyReceiveBuffer _ i hi, hkeep i hlen hi]
    exact hfill i (by omega)
  · rw [hkeep 5 hlen (by decide)] at hout
    rw [hport]
    cases hp : PF1 (interpret (copyReceiveBuffer
        (storeAt (initialServer portF).BsdBuf 0 ((t.recv 0).2.take BUF_SIZE))) portF)
    · rfl
    · exact absurd (hout.1.mp hp) (hpre 5)

/-- C29 witness: a receive that fails with -1 and stores nothing, with both
outputs on before: both are driven off. -/
theorem C29_short_receive_outputs_off_witness :
    (0 ≤ recvFailPeer.socket ∧ 0 ≤ recvFailPeer.bind ∧ 0 ≤ recvFailPeer.listen ∧
      0 ≤ recvFailPeer.accept ∧ (BsdTcpServer recvFailPeer 6 2).isSome = true ∧
      (recvFailPeer.recv 0).2.length ≤ 5 ∧ PF1 6 = true ∧ PF2 6 = true) ∧
    ∀ r, BsdTcpServer recvFailPeer 6 2 = some r →
      byteAt r.final.ReceiveBuffer 12 = 2 ∧
      PF1 r.final.portF = false ∧ PF2 r.final.portF = false :=
  ⟨⟨by decide, by decide, by decide, by decide, by decide, by decide, by decide, by decide⟩,
   fun r hr =>
     ⟨(C29_short_receive_outputs_off recvFailPeer 6 2 r (by decide) (by decide)
        (by decide) (by decide) hr).2.2.2.1 12 (by decide) (by decide),
      (C29_short_receive_outputs_off recvFailPeer 6 2 r (by decide) (by decide)
        (by decide) (by decide) hr).2.2.2.2.2 (by decide)⟩⟩

end Lab6

namespace Lab1

/-! ### The LED and button loop of lab1 -/

/-- The hold-count loop ends, and changes neither P1OUT nor `switchCount`. -/
lemma holdLoop_some (P1IN : Nat → Nat) :
    ∀ (fuel : Nat) (b : Board), TWO_SEC + 1 - b.switchPressTime < fuel →
      ∃ b1, holdLoop P1IN fuel b = some b1 ∧ b1.P1OUT = b.P1OUT ∧
        b1.switchCount = b.switchCount := by
  intro fuel
  induction fuel with
  | zero => intro b h; omega
  | succ n ih =>
    intro b h
    unfold holdLoop
    by_cases hc : b.switchPressTime ≤ TWO_SEC ∧ b.switchPressDelayFlag = 0
    · rw [if_pos hc]
      have hT : TWO_SEC = 9000 := rfl
      have hU : UINT_RANGE = 65536 := rfl
      by_cases hp : P1IN b.reads &&& 0x08 = 0
      · simp only [hp, if_true]
        have hmod : (b.switchPressTime + 1) % UINT_RANGE = b.switchPressTime + 1 :=
          Nat.mod_eq_of_lt (by omega)
        rw [hmod]
        obtain ⟨b1, h1, h2, h3⟩ :=
          ih { b with reads := b.reads + 1, switchPressTime := b.switchPressTime + 1 }
            (by simp only; omega)
        exact ⟨b1, h1, h2, h3⟩
      · simp only [hp, if_false]
        cases n with
        | zero => omega
        | succ m =>
          unfold holdLoop
          have hc2 : ¬ (b.switchPressTime ≤ TWO_SEC ∧ (1 : Nat) = 0) := by omega
          simp only [hc2, if_false]
          exact ⟨_, rfl, rfl, rfl⟩
    · rw [if_neg hc]
      exact ⟨b, rfl, rfl, rfl⟩

/-- The press handling ends, and changes neither P1OUT nor `switchCount`. -/
lemma pressStep_some (P1IN : Nat → Nat) (b : Board) :
    ∃ b1, pressStep P1IN b = some b1 ∧ b1.P1OUT = b.P1OUT ∧
      b1.switchCount = b.switchCount := by
  unfold pressStep
  by_cases hp : P1IN b.reads &&& 0x08 = 0
  · simp only [hp, if_true]
    obtain ⟨b1, h1, h2, h3⟩ := holdLoop_some P1IN (TWO_SEC + 2) { b with reads := b.reads + 1 }
      (by simp only; omega)
    rw [h1]
    exact ⟨_, rfl, h2, h3⟩
  · simp only [hp, if_false]
    exact ⟨_, rfl, rfl, rfl⟩

/-- The release check does not change P1OUT. -/
lemma releaseStep_P1OUT (P1IN : Nat → Nat) (b : Board) :
    (releaseStep P1IN b).P1OUT = b.P1OUT := by
  simp only [releaseStep]
  split_ifs <;> rfl

/-- The LED step does not change `switchCount`. -/
lemma ledStep_switchCount (b : Board) : (ledStep b).switchCount = b.switchCount := by
  unfold ledStep
  split_ifs <;> rfl

/-- A pass ends, and P1OUT after it is as the LED step has left it. -/
lemma pass_some (P1IN : Nat → Nat) (b : Board) :
    ∃ b1, pass P1IN b = some b1 ∧ b1.P1OUT = (ledStep b).P1OUT := by
  obtain ⟨b1, h1, h2, -⟩ := pressStep_some P1IN (ledStep b)
  refine ⟨releaseStep P1IN b1, ?_, ?_⟩
  · simp [pass, h1]
  · rw [releaseStep_P1OUT, h2]

/-- Every number of passes ends. -/
lemma run_some (P1IN : Nat → Nat) : ∀ (n : Nat) (b : Board), ∃ b1, run P1IN n b = some b1 := by
  intro n
  induction n with
  | zero => intro b; exact ⟨b, rfl⟩
  | succ m ih =>
    intro b
    obtain ⟨b1, h1, -⟩ := pass_some P1IN b
    obtain ⟨b2, h2⟩ := ih b1
    exact ⟨b2, by simp [run, h1, h2]⟩

/-- After the LED step the LED that does not blink is off. -/
lemma ledStep_bits (b : Board) :
    (b.switchCount % 2 = 0 → (ledStep b).P1OUT.testBit 0 = false) ∧
    (b.switchCount % 2 = 1 → (ledStep b).P1OUT.testBit 6 = false) := by
  have a0 : Nat.testBit 0xFE 0 = false := by decide
  have a1 : Nat.testBit 0x40 0 = false := by decide
  have a2 : Nat.testBit 0xBF 6 = false := by decide
  have a3 : Nat.testBit 0x01 6 = false := by decide
  unfold ledStep toggleLed1 toggleLed2
  constructor
  · intro h
    simp only [if_pos h, Nat.testBit_xor, Nat.testBit_and, a0, a1]
    simp
  · intro h
    have h2 : ¬ b.switchCount % 2 = 0 := by omega
    simp only [if_neg h2, Nat.testBit_xor, Nat.testBit_and, a2, a3]
    simp

/-- The hold-count loop while the button stays pressed: it counts up to
`TWO_SEC + 1`, reading P1IN once per iteration. -/
lemma holdLoop_held (P1IN : Nat → Nat) :
    ∀ (m fuel : Nat) (b : Board), b.switchPressDelayFlag = 0 →
      b.switchPressTime + m = TWO_SEC + 1 → m < fuel →
      (∀ j, j < m → P1IN (b.reads + j) &&& 0x08 = 0) →
      ∃ b1, holdLoop P1IN fuel b = some b1 ∧ b1.switchPressTime = TWO_SEC + 1 ∧
        b1.reads = b.reads + m ∧ b1.switchPressDelayFlag = 0 ∧
        b1.switchPressTimeTotal = b.switchPressTimeTotal ∧
        b1.switchCount = b.switchCount ∧ b1.P1OUT = b.P1OUT := by
  intro m
  induction m with
  | zero =>
    intro fuel b hflag hspt hfuel _
    cases fuel with
    | zero => omega
    | succ f =>
      unfold holdLoop
      have hc : ¬ (b.switchPressTime ≤ TWO_SEC ∧ b.switchPressDelayFlag = 0) := by omega
      rw [if_neg hc]
      exact ⟨b, rfl, by omega, rfl, hflag, rfl, rfl, rfl⟩
  | succ m ih =>
    intro fuel b hflag hspt hfuel hp
    cases fuel with
    | zero => omega
    | succ f =>
      unfold holdLoop
      have hT : TWO_SEC = 9000 := rfl
      have hU : UINT_RANGE = 65536 := rfl
      have hc : b.switchPressTime ≤ TWO_SEC ∧ b.switchPressDelayFlag = 0 := ⟨by omega, hflag⟩
      have h0 : P1IN b.reads &&& 0x08 = 0 := by
        have := hp 0 (by omega)
        simpa using this
      have hmod : (b.switchPressTime + 1) % UINT_RANGE = b.switchPressTime + 1 :=
        Nat.mod_eq_of_lt (by omega)
      rw [if_pos hc]
      simp only [h0, if_true, hmod]
      obtain ⟨b1, h1, h2, h3, h4, h5, h6, h7⟩ :=
        ih f { b with reads := b.reads + 1, switchPressTime := b.switchPressTime + 1 }
          hflag (by simp only; omega) (by omega)
          (fun j hj => by
            have := hp (j + 1) (by omega)
            simp only
            rw [show b.reads + 1 + j = b.reads + (j + 1) by omega]
            exact this)
      exact ⟨b1, h1, h2, by rw [h3]; simp only; omega, h4, h5, h6, h7⟩

/-- A pass during which the button reads pressed up to the release check. -/
lemma pass_held (P1IN : Nat → Nat) (b : Board) (hspt : b.switchPressTime = 0)
    (hflag : b.switchPressDelayFlag = 0)
    (hp : ∀ j, j < TWO_SEC + 2 → P1IN (b.reads + j) &&& 0x08 = 0) :
    ∃ b1, pass P1IN b = some b1 ∧ b1.reads = b.reads + (TWO_SEC + 3) ∧
      b1.switchPressTime = 0 ∧ b1.switchPressDelayFlag = 0 ∧
      (P1IN (b.reads + (TWO_SEC + 2)) &&& 0x08 = 0 →
        b1.switchPressTimeTotal = (b.switchPressTimeTotal + (TWO_SEC + 1)) % UINT_RANGE ∧
        b1.switchCount = b.switchCount) ∧
      (P1IN (b.reads + (TWO_SEC + 2)) &&& 0x08 ≠ 0 →
        b1.switchPressTimeTotal = 0 ∧
        b1.switchCount =
          if (b.switchPressTimeTotal + (TWO_SEC + 1)) % UINT_RANGE ≥ TWO_SEC + 1 then
            (b.switchCount + 1) % UINT_RANGE
          else b.switchCount) := by
  have hl : (ledStep b).reads = b.reads ∧ (ledStep b).switchPressTime = b.switchPressTime ∧
      (ledStep b).switchPressDelayFlag = b.switchPressDelayFlag ∧
      (ledStep b).switchPressTimeTotal = b.switchPressTimeTotal ∧
      (ledStep b).switchCount = b.switchCount := by
    unfold ledStep
    split_ifs <;> exact ⟨rfl, rfl, rfl, rfl, rfl⟩
  obtain ⟨l1, l2, l3, l4, l5⟩ := hl
  have h0 : P1IN (ledStep b).reads &&& 0x08 = 0 := by
    rw [l1]
    have := hp 0 (by omega)
    simpa using this
  obtain ⟨b2, g1, g2, g3, g4, g5, g6, -⟩ :=
    holdLoop_held P1IN (TWO_SEC + 1) (TWO_SEC + 2)
      { ledStep b with reads := (ledStep b).reads + 1 }
      (by simp only; rw [l3]; exact hflag) (by simp only; rw [l2, hspt]; omega) (by omega)
      (fun j hj => by
        have := hp (j + 1) (by omega)
        simp only
        rw [l1, show b.reads + 1 + j = b.reads + (j + 1) by omega]
        exact this)
  simp only at g3 g5 g6
  have hpress : pressStep P1IN (ledStep b) = some
      { b2 with
        switchPressDelayFlag := 0
        switchPressTimeTotal := (b2.switchPressTimeTotal + b2.switchPressTime) % UINT_RANGE
        switchPressTime := 0 } := by
    simp only [pressStep, h0, if_true, g1]
  have hreads : b2.reads = b.reads + (TWO_SEC + 2) := by rw [g3, l1]; omega
  have hpass : pass P1IN b = some (releaseStep P1IN
      { b2 with
        switchPressDelayFlag := 0
        switchPressTimeTotal := (b2.switchPressTimeTotal + b2.switchPressTime) % UINT_RANGE
        switchPressTime := 0 }) := by
    simp only [pass, hpress, Option.map_some']
  refine ⟨_, hpass, ?_, ?_, ?_, ?_, ?_⟩
  · simp only [releaseStep]
    split_ifs <;> simp only <;> omega
  · simp only [releaseStep]
    split_ifs <;> rfl
  · simp only [releaseStep]
    split_ifs <;> rfl
  · intro hrel
    have hrel2 : P1IN b2.reads &&& 0x08 = 0 := by rw [hreads]; exact hrel
    simp only [releaseStep, hrel2, ne_eq, not_true_eq_false, if_false]
    rw [g5, g2, l4, g6, l5]
    exact ⟨rfl, rfl⟩
  · intro hrel
    have hrel2 : P1IN b2.reads &&& 0x08 ≠ 0 := by rw [hreads]; exact hrel
    simp only [releaseStep, if_pos hrel2]
    rw [g5, g2, l4, g6, l5]
    split_ifs <;> simp

/-- The passes can be counted from the last one. -/
lemma run_succ_last (P1IN : Nat → Nat) :
    ∀ (n : Nat) (b : Board), run P1IN (n + 1) b = (run P1IN n b).bind (pass P1IN) := by
  intro n
  induction n with
  | zero =>
    intro b
    cases hpb : pass P1IN b <;> simp [run, hpb]
  | succ m ih =>
    intro b
    rw [run]
    cases hpb : pass P1IN b with
    | none => simp [run, hpb]
    | some b1 =>
      simp only
      rw [ih b1]
      simp [run, hpb]

/-- The state after j passes during which the button reads pressed: the
total is j times `TWO_SEC + 1`, reduced to 16 bits. -/
lemma run_held (P1IN : Nat → Nat) (p : Nat) :
    ∀ j : Nat, (∀ i, i < j * readsPerHeldPass → P1IN i &&& 0x08 = 0) →
      ∃ b, run P1IN j (initialBoard p) = some b ∧ b.reads = j * readsPerHeldPass ∧
        b.switchPressTime = 0 ∧ b.switchPressDelayFlag = 0 ∧
        b.switchPressTimeTotal = (j * (TWO_SEC + 1)) % UINT_RANGE ∧ b.switchCount = 0 := by
  intro j
  have hR : readsPerHeldPass = TWO_SEC + 3 := rfl
  have hT : TWO_SEC = 9000 := rfl
  have hU : UINT_RANGE = 65536 := rfl
  induction j with
  | zero =>
    intro _
    exact ⟨initialBoard p, rfl, by simp [initialBoard], rfl, rfl, by simp [initialBoard], rfl⟩
  | succ j ih =>
    intro hp
    obtain ⟨b, h1, h2, h3, h4, h5, h6⟩ := ih (fun i hi => hp i (by
      rw [hR, hT] at hi ⊢; omega))
    obtain ⟨b1, k1, k2, k3, k4, k5, -⟩ := pass_held P1IN b h3 h4 (fun i hi => hp _ (by
      rw [h2, hR, hT] at *; omega))
    have hlast := k5 (hp _ (by rw [h2, hR, hT] at *; omega))
    refine ⟨b1, by rw [run_succ_last, h1]; exact k1, ?_, k3, k4, ?_, ?_⟩
    · rw [k2, h2, hR]; ring
    · rw [hlast.1, h5, hT, hU]; omega
    · rw [hlast.2, h6]

/-- The count after k passes with the button held down and released at the
release check of the k-th pass. -/
lemma run_held_released (P1IN : Nat → Nat) (p k : Nat) (hk : 1 ≤ k)
    (hp : ∀ i, i < k * readsPerHeldPass - 1 → P1IN i &&& 0x08 = 0)
    (hrel : P1IN (k * readsPerHeldPass - 1) &&& 0x08 ≠ 0) :
    ∃ b, run P1IN k (initialBoard p) = some b ∧
      b.switchCount = if TWO_SEC + 1 ≤ (k * (TWO_SEC + 1)) % UINT_RANGE then 1 else 0 := by
  have hR : readsPerHeldPass = TWO_SEC + 3 := rfl
  have hT : TWO_SEC = 9000 := rfl
  have hU : UINT_RANGE = 65536 := rfl
  obtain ⟨j, rfl⟩ : ∃ j, k = j + 1 := ⟨k - 1, by omega⟩
  obtain ⟨b, h1, h2, h3, h4, h5, h6⟩ := run_held P1IN p j (fun i hi => hp i (by
    rw [hR, hT] at hi ⊢; omega))
  obtain ⟨b1, k1, -, -, -, -, k6⟩ := pass_held P1IN b h3 h4 (fun i hi => hp _ (by
    rw [h2, hR, hT] at *; omega))
  have hidx : b.reads + (TWO_SEC + 2) = (j + 1) * readsPerHeldPass - 1 := by
    rw [h2, hR, hT]; omega
  rw [hidx] at k6
  have hlast := k6 hrel
  refine ⟨b1, by rw [run_succ_last, h1]; exact k1, ?_⟩
  rw [hlast.2, h5, h6]
  have hsum : (j * (TWO_SEC + 1) % UINT_RANGE + (TWO_SEC + 1)) % UINT_RANGE =
      ((j + 1) * (TWO_SEC + 1)) % UINT_RANGE := by
    rw [hT, hU]; omega
  rw [hsum]
  split_ifs <;> rfl

/-- The input `heldFor k` reads pressed at every read but the last. -/
lemma heldFor_pressed (k i : Nat) (hi : i ≠ k * readsPerHeldPass - 1) :
    heldFor k i &&& 0x08 = 0 := by
  simp [heldFor, hi]

/-- The input `heldFor k` reads released at the release check of pass k. -/
lemma heldFor_released (k : Nat) : heldFor k (k * readsPerHeldPass - 1) &&& 0x08 ≠ 0 := by
  simp [heldFor]

/-- C23 fails on the code: with S2 held down for 8 consecutive passes and
released at the release check of the 8th, `switchPressTimeTotal` is
8 * 9001 = 72008 reduced to 16 bits, that is 6472, which is less than
`TWO_SEC + 1` = 9001, so `switchCount` is not incremented and the blinking
LED does not change. For 1 and for 7 passes it is incremented. -/
theorem C23_long_press_overflow :
    (8 * (TWO_SEC + 1)) % UINT_RANGE = 6472 ∧
    (∃ b, run (heldFor 8) 8 (initialBoard 0) = some b ∧ b.switchCount = 0) ∧
    (∃ b, run (heldFor 1) 1 (initialBoard 0) = some b ∧ b.switchCount = 1) ∧
    (∃ b, run (heldFor 7) 7 (initialBoard 0) = some b ∧ b.switchCount = 1) := by
  refine ⟨by decide, ?_, ?_, ?_⟩
  · obtain ⟨b, h1, h2⟩ := run_held_released (heldFor 8) 0 8 (by decide)
      (fun i hi => heldFor_pressed 8 i (by omega)) (heldFor_released 8)
    exact ⟨b, h1, by rw [h2]; decide⟩
  · obtain ⟨b, h1, h2⟩ := run_held_released (heldFor 1) 0 1 (by decide)
      (fun i hi => heldFor_pressed 1 i (by omega)) (heldFor_released 1)
    exact ⟨b, h1, by rw [h2]; decide⟩
  · obtain ⟨b, h1, h2⟩ := run_held_released (heldFor 7) 0 7 (by decide)
      (fun i hi => heldFor_pressed 7 i (by omega)) (heldFor_released 7)
    exact ⟨b, h1, by rw [h2]; decide⟩

/-- After the LED step LED1 and LED2 are not both on. -/
lemma ledStep_not_both (b : Board) :
    ¬ ((ledStep b).P1OUT.testBit 0 = true ∧ (ledStep b).P1OUT.testBit 6 = true) := by
  obtain ⟨he, ho⟩ := ledStep_bits b
  rintro ⟨h0, h6⟩
  rcases Nat.mod_two_eq_zero_or_one b.switchCount with h | h
  · rw [he h] at h0; cases h0
  · rw [ho h] at h6; cases h6

/-- Between passes LED1 and LED2 are not both on. -/
lemma run_not_both (P1IN : Nat → Nat) (p : Nat) :
    ∀ n, ∃ b, run P1IN n (initialBoard p) = some b ∧
      ¬ (b.P1OUT.testBit 0 = true ∧ b.P1OUT.testBit 6 = true) := by
  intro n
  induction n with
  | zero =>
    have a0 : Nat.testBit 0xBE 0 = false := by decide
    refine ⟨initialBoard p, rfl, ?_⟩
    rintro ⟨h0, -⟩
    simp [initialBoard, Nat.testBit_and, a0] at h0
  | succ m ih =>
    obtain ⟨b, hb, -⟩ := ih
    obtain ⟨b1, h1, h2⟩ := pass_some P1IN b
    refine ⟨b1, by rw [run_succ_last, hb]; exact h1, ?_⟩
    rw [h2]
    exact ledStep_not_both b

/-- C30 (as amended): from the initial state, in which `P1OUT &= 0xBE` has
cleared bits 0 and 6, for every sequence of button samples and every number
n of passes of the main loop the passes end, and bits 0 (LED1) and 6 (LED2)
of P1OUT are never both set: not between passes, not after the LED step of
the next pass, not after its press handling and not after its release
check, since the button handling leaves P1OUT as the LED step has set it.
After the LED step, and up to the release check of that pass (the press
handling leaves `switchCount` unchanged), bit 0 is clear when `switchCount`
is even and bit 6 is clear when it is odd. -/
theorem C30_at_most_one_led (P1IN : Nat → Nat) (p n : Nat) :
    (initialBoard p).P1OUT.testBit 0 = false ∧ (initialBoard p).P1OUT.testBit 6 = false ∧
    ∃ b, run P1IN n (initialBoard p) = some b ∧
      ¬ (b.P1OUT.testBit 0 = true ∧ b.P1OUT.testBit 6 = true) ∧
      (ledStep b).switchCount = b.switchCount ∧
      (b.switchCount % 2 = 0 → (ledStep b).P1OUT.testBit 0 = false) ∧
      (b.switchCount % 2 = 1 → (ledStep b).P1OUT.testBit 6 = false) ∧
      ¬ ((ledStep b).P1OUT.testBit 0 = true ∧ (ledStep b).P1OUT.testBit 6 = true) ∧
      ∃ b1, pressStep P1IN (ledStep b) = some b1 ∧
        b1.P1OUT = (ledStep b).P1OUT ∧ b1.switchCount = b.switchCount ∧
        (b1.switchCount % 2 = 0 → b1.P1OUT.testBit 0 = false) ∧
        (b1.switchCount % 2 = 1 → b1.P1OUT.testBit 6 = false) ∧
        ¬ (b1.P1OUT.testBit 0 = true ∧ b1.P1OUT.testBit 6 = true) ∧
        pass P1IN b = some (releaseStep P1IN b1) ∧
        (releaseStep P1IN b1).P1OUT = (ledStep b).P1OUT ∧
        ¬ ((releaseStep P1IN b1).P1OUT.testBit 0 = true ∧
            (releaseStep P1IN b1).P1OUT.testBit 6 = true) := by
  have a0 : Nat.testBit 0xBE 0 = false := by decide
  have a6 : Nat.testBit 0xBE 6 = false := by decide
  refine ⟨by simp [initialBoard, Nat.testBit_and, a0],
    by simp [initialBoard, Nat.testBit_and, a6], ?_⟩
  obtain ⟨b, hb, hnb⟩ := run_not_both P1IN p n
  obtain ⟨he, ho⟩ := ledStep_bits b
  obtain ⟨b1, h1, h2, h3⟩ := pressStep_some P1IN (ledStep b)
  have h3b : b1.switchCount = b.switchCount := by rw [h3, ledStep_switchCount]
  refine ⟨b, hb, hnb, ledStep_switchCount b, he, ho, ledStep_not_both b, b1, h1, h2, h3b,
    ?_, ?_, ?_, ?_, ?_, ?_⟩
  · intro h
    rw [h2]
    exact he (by rw [← h3b]; exact h)
  · intro h
    rw [h2]
    exact ho (by rw [← h3b]; exact h)
  · rw [h2]
    exact ledStep_not_both b
  · simp [pass, h1]
  · rw [releaseStep_P1OUT, h2]
  · rw [releaseStep_P1OUT, h2]
    exact ledStep_not_both b

/-- C30 as stated fails: with S2 held down through the first pass and
released at its release check (`heldFor 1`), the LED step of that pass runs
with `switchCount` = 0 and sets bit 6, and the release check then increments
`switchCount`; at the end of the pass `switchCount` is odd and bit 6 of
P1OUT is set. -/
theorem C30_parity_counterexample :
    (ledStep (initialBoard 0)).switchCount = 0 ∧
    (ledStep (initialBoard 0)).P1OUT = 0x40 ∧
    ∃ b, pass (heldFor 1) (initialBoard 0) = some b ∧
      run (heldFor 1) 1 (initialBoard 0) = some b ∧
      b.P1OUT = 0x40 ∧ b.switchCount = 1 ∧
      b.switchCount % 2 = 1 ∧ b.P1OUT.testBit 6 = true := by
  obtain ⟨b, h1, h2⟩ := run_held_released (heldFor 1) 0 1 (by decide)
    (fun i hi => heldFor_pressed 1 i (by omega)) (heldFor_released 1)
  obtain ⟨b1, hp, hP⟩ := pass_some (heldFor 1) (initialBoard 0)
  have hrun : run (heldFor 1) 1 (initialBoard 0) = some b1 := by
    simp [run, hp]
  have hbb : b1 = b := by
    rw [hrun] at h1
    exact Option.some.inj h1
  subst hbb
  have hled : (ledStep (initialBoard 0)).P1OUT = 0x40 := by decide
  have hsc : b1.switchCount = 1 := by rw [h2]; decide
  have hout : b1.P1OUT = 0x40 := by rw [hP, hled]
  refine ⟨by decide, hled, b1, hp, hrun, hout, hsc, by rw [hsc], ?_⟩
  rw [hout]
  decide

end Lab1
